import Mathlib

/-!
Shallow embedding of the OKLCH shade generator (`src/shade-generator.js`) of
the `@uniweb/theming` package, together with proofs about the claims of its
specification.

Modelling conventions:
* JavaScript numbers are idealized as exact rationals (`ℚ`).  The
  transcendental primitives the code uses (`Math.cbrt`, `Math.pow` with the
  sRGB gamma exponents, `Math.sqrt`, `Math.sin`/`Math.cos` of a hue given in
  degrees, `Math.atan2` scaled to degrees) are collected in a `ColorOps`
  structure; all theorems that depend on them quantify over an arbitrary
  instantiation, and `defaultOps` provides a concrete computable
  instantiation used for witnesses and counterexamples.
* JavaScript strings are modelled as `String`/`List Char`; the three regular
  expressions of the parser are modelled by deterministic matchers with the
  same language (for these particular patterns greedy matching never needs
  to backtrack) run at every start position, mirroring `String.match`.
* `parseFloat` applied to a matched `[0-9.]+` token yields `NaN` exactly
  when the token has no digit (such tokens, e.g. the bare `"."` of
  `rgb(. 1 2)`, are accepted by the regexes).  The embedding returns
  `Option ℚ` there and substitutes `0` at the use sites, so it diverges
  from the program on NaN-poisoned inputs; the predicate `parseClean`
  below delimits the digit-carrying domain on which the substitution never
  fires, and the theorems about parse results and generated ramps carry it
  as an explicit hypothesis where NaN would otherwise propagate.
* `MODE_CONFIG[mode]` in JavaScript consults the prototype chain: a mode
  naming a member of `Object.prototype` (`"constructor"`, `"toString"`,
  `"valueOf"`, `"__proto__"`, ...) yields a truthy non-config object, and
  `generateEnhancedShades` then throws a `TypeError` at
  `config.hueShift.light`.  The embedding lists those keys explicitly
  (`objectProtoKeys`) and maps such modes to `none`.
* `parseInt(s, 16)` inside `hexToRgb` is modelled as the value of the
  longest hex-digit prefix, with `NaN` as `0` (faithful because
  `(NaN >> k) & 255` is `0`); a leading sign or `0x` prefix in the digit
  text, which real `parseInt` would honour, is not modelled.
* A thrown `Error` is modelled as `none`.
-/

namespace Theming

/-! ### JavaScript numeric primitives -/

/-- `Math.round`: round half towards positive infinity. -/
def roundJS (x : ℚ) : ℤ := ⌊x + 1/2⌋

/-- Truncation towards zero, as used by the JavaScript `%` operator. -/
def truncQ (x : ℚ) : ℤ := if x < 0 then ⌈x⌉ else ⌊x⌋

/-- The JavaScript remainder operator `a % b` (sign follows the dividend). -/
def jsMod (a b : ℚ) : ℚ := a - b * (truncQ (a / b) : ℚ)

/-- `Math.max(lo, Math.min(hi, x))`. -/
def clampQ (lo hi x : ℚ) : ℚ := max lo (min hi x)

/-! ### Characters and strings -/

/-- ASCII whitespace, the fragment of the regex class matched by inputs here. -/
def isWSChar (c : Char) : Bool :=
  c = ' ' || c = '\t' || c = '\n' || c = '\r' || c = '\x0b' || c = '\x0c'

/-- ASCII `toLowerCase` on one character. -/
def jsLowerChar (c : Char) : Char :=
  if 'A' ≤ c && c ≤ 'Z' then Char.ofNat (c.toNat + 32) else c

/-- `String.prototype.trim` (ASCII whitespace fragment). -/
def jsTrim (cs : List Char) : List Char :=
  ((cs.dropWhile isWSChar).reverse.dropWhile isWSChar).reverse

/-- `color.trim().toLowerCase()` as performed by `parseColor`. -/
def jsNorm (s : String) : List Char := (jsTrim s.data).map jsLowerChar

/-- `String.prototype.startsWith`. -/
def listStarts : List Char → List Char → Bool
  | [], _ => true
  | _ :: _, [] => false
  | p :: ps, c :: cs => p = c && listStarts ps cs

/-- Strip a literal from the front, failing if it is not there. -/
def stripLit : List Char → List Char → Option (List Char)
  | [], cs => some cs
  | _ :: _, [] => none
  | p :: ps, c :: cs => if c = p then stripLit ps cs else none

/-- `String.prototype.replace` with a one-character pattern: first hit only. -/
def replaceFirst (t : Char) : List Char → List Char
  | [] => []
  | c :: cs => if c = t then cs else c :: replaceFirst t cs

/-- Character class `[0-9.]` of the numeric tokens. -/
def isTokChar (c : Char) : Bool := c.isDigit || c = '.'

/-- Lowercase hexadecimal digit (inputs reaching hex parsing are lowercased). -/
def isLowerHexChar (c : Char) : Bool := c.isDigit || ('a' ≤ c && c ≤ 'f')

/-- Separator class `[\s,]` of the rgb/hsl regexes. -/
def isSepChar (c : Char) : Bool := isWSChar c || c = ','

/-! ### Decimal / hexadecimal digit strings -/

/-- Digit character for a value below the base (lowercase letters above 9). -/
def hexDigitChar (n : ℕ) : Char :=
  if n < 10 then Char.ofNat (48 + n) else Char.ofNat (87 + n)

/-- Fueled big-endian digit rendering (`n.toString(base)`). -/
def natDigitsAux (base : ℕ) : ℕ → ℕ → List Char
  | 0, _ => []
  | f + 1, n =>
    if n < base then [hexDigitChar n]
    else natDigitsAux base f (n / base) ++ [hexDigitChar (n % base)]

/-- Decimal rendering of a natural number. -/
def natDecimal (n : ℕ) : List Char := natDigitsAux 10 (n + 1) n

/-- Hexadecimal rendering of a natural number (`n.toString(16)`). -/
def natHexStr (n : ℕ) : List Char := natDigitsAux 16 (n + 1) n

/-- Value of a decimal digit character. -/
def digitVal (c : Char) : ℕ := c.toNat - 48

/-- Value of a lowercase hexadecimal digit character. -/
def hexCharVal (c : Char) : ℕ := if c.isDigit then c.toNat - 48 else c.toNat - 87

/-- Value of a big-endian decimal digit string. -/
def digitsValN (cs : List Char) : ℕ := cs.foldl (fun a c => 10 * a + digitVal c) 0

/-- Value of a big-endian hexadecimal digit string. -/
def hexValN (cs : List Char) : ℕ := cs.foldl (fun a c => 16 * a + hexCharVal c) 0

/-- `Number.prototype.toFixed(n)` for the scaled nonnegative integer `m`,
i.e. the decimal string of `m / 10^n` with exactly `n` decimals. -/
def toFixedNat (n : ℕ) (m : ℕ) : String :=
  let ds := natDecimal m
  let ds := if ds.length ≤ n then List.replicate (n + 1 - ds.length) '0' ++ ds else ds
  if n = 0 then String.mk ds
  else String.mk (ds.take (ds.length - n)) ++ "." ++ String.mk (ds.drop (ds.length - n))

/-- `x.toFixed(n)`, idealized as round-half-away-from-zero on the rational. -/
def toFixedQ (n : ℕ) (x : ℚ) : String :=
  if x < 0 then "-" ++ toFixedNat n (Int.toNat (roundJS ((-x) * 10 ^ n)))
  else toFixedNat n (Int.toNat (roundJS (x * 10 ^ n)))

/-- `parseFloat` restricted to a `[0-9.]+` token: longest `digits[.digits]`
value; `none` models the `NaN` produced when the token carries no digit. -/
def parseFloatTok (cs : List Char) : Option ℚ :=
  let ip := cs.takeWhile fun c => c.isDigit
  let rest := cs.drop ip.length
  match rest with
  | '.' :: rest2 =>
    let fp := rest2.takeWhile fun c => c.isDigit
    if ip.isEmpty && fp.isEmpty then none
    else some ((digitsValN ip : ℚ) + (digitsValN fp : ℚ) / 10 ^ fp.length)
  | _ => if ip.isEmpty then none else some (digitsValN ip)

/-! ### Regex models

The three regexes of the source are modelled by deterministic matchers.
For each of these patterns a greedy left-to-right match never needs to
backtrack (every quantified class is disjoint from the literal that
follows it, and where an optional literal such as `(deg)?` is followed by
a mandatory class, both the taken and the skipped alternative fail on the
same inputs), so the deterministic matcher accepts exactly the regex
language.  `searchMatch` runs the matcher at every start position from the
left, mirroring the unanchored `String.match`. -/

/-- Run an unanchored matcher at every suffix, leftmost first. -/
def searchMatch {α : Type} (f : List Char → Option α) : List Char → Option α
  | [] => f []
  | c :: cs =>
    match f (c :: cs) with
    | some a => some a
    | none => searchMatch f cs

/-- Capture groups of `/oklch\(\s*([0-9.]+)(%?)\s+([0-9.]+)\s+([0-9.]+)(deg)?\s*\)/`. -/
structure OklchG where
  lTok : List Char
  pct : Bool
  cTok : List Char
  hTok : List Char
deriving DecidableEq

/-- One `([0-9.]+)` group: the greedy token and the remainder; fails when
the token is empty. -/
def takeTok (cs : List Char) : Option (List Char × List Char) :=
  if (cs.takeWhile isTokChar).isEmpty then none
  else some (cs.takeWhile isTokChar, cs.drop (cs.takeWhile isTokChar).length)

/-- One mandatory run of a character class (`\s+` or `[\s,]+`). -/
def takeRun (p : Char → Bool) (cs : List Char) : Option (List Char) :=
  if (cs.takeWhile p).isEmpty then none else some (cs.drop (cs.takeWhile p).length)

/-- An optional literal such as `(deg)?`. -/
def skipLit (lit : List Char) (cs : List Char) : List Char :=
  match stripLit lit cs with
  | some r => r
  | none => cs

/-- Deterministic model of the oklch regex at one start position. -/
def oklchMatchAt (cs : List Char) : Option OklchG :=
  (stripLit "oklch(".data cs).bind fun cs =>
  (takeTok (cs.dropWhile isWSChar)).bind fun lRest =>
  let pr := match lRest.2 with
    | '%' :: r => (true, r)
    | r => (false, r)
  (takeRun isWSChar pr.2).bind fun cs =>
  (takeTok cs).bind fun cRest =>
  (takeRun isWSChar cRest.2).bind fun cs =>
  (takeTok cs).bind fun hRest =>
  match (skipLit "deg".data hRest.2).dropWhile isWSChar with
  | ')' :: _ => some ⟨lRest.1, pr.1, cRest.1, hRest.1⟩
  | _ => none

/-- Capture groups shared by the rgb and hsl matchers. -/
structure Toks3 where
  t1 : List Char
  t2 : List Char
  t3 : List Char
deriving DecidableEq

/-- Deterministic model of `/rgba?\(\s*([0-9.]+)[\s,]+([0-9.]+)[\s,]+([0-9.]+)/`
at one start position (note: no closing parenthesis is required). -/
def rgbMatchAt (cs : List Char) : Option Toks3 :=
  (stripLit "rgb".data cs).bind fun cs =>
  (match cs with
   | 'a' :: '(' :: r => some r
   | '(' :: r => some r
   | _ => none).bind fun cs =>
  (takeTok (cs.dropWhile isWSChar)).bind fun t1 =>
  (takeRun isSepChar t1.2).bind fun cs =>
  (takeTok cs).bind fun t2 =>
  (takeRun isSepChar t2.2).bind fun cs =>
  (takeTok cs).bind fun t3 =>
  some ⟨t1.1, t2.1, t3.1⟩

/-- Deterministic model of
`/hsla?\(\s*([0-9.]+)(deg)?[\s,]+([0-9.]+)%[\s,]+([0-9.]+)%/` at one start
position. -/
def hslMatchAt (cs : List Char) : Option Toks3 :=
  (stripLit "hsl".data cs).bind fun cs =>
  (match cs with
   | 'a' :: '(' :: r => some r
   | '(' :: r => some r
   | _ => none).bind fun cs =>
  (takeTok (cs.dropWhile isWSChar)).bind fun t1 =>
  (takeRun isSepChar (skipLit "deg".data t1.2)).bind fun cs =>
  (takeTok cs).bind fun t2 =>
  (match t2.2 with
   | '%' :: r => some r
   | _ => none).bind fun cs =>
  (takeRun isSepChar cs).bind fun cs =>
  (takeTok cs).bind fun t3 =>
  (match t3.2 with
   | '%' :: _ => some ()
   | _ => none).bind fun _ =>
  some ⟨t1.1, t2.1, t3.1⟩

/-! ### Colors and the transcendental primitives -/

/-- An OKLCH triple `{ l, c, h }` as returned by `parseColor`. -/
structure PColor where
  l : ℚ
  c : ℚ
  h : ℚ
deriving DecidableEq, Repr

/-- The transcendental primitives used by the colour pipeline.  `sinDeg`/
`cosDeg` model `Math.sin`/`Math.cos` applied to `h * π / 180`, and
`atan2Deg` models `Math.atan2 * (180 / π)`; `pow24` is `x ** 2.4` and
`powInv24` is `x ** (1 / 2.4)`. -/
structure ColorOps where
  cbrt : ℚ → ℚ
  sqrtQ : ℚ → ℚ
  pow24 : ℚ → ℚ
  powInv24 : ℚ → ℚ
  sinDeg : ℚ → ℚ
  cosDeg : ℚ → ℚ
  atan2Deg : ℚ → ℚ → ℚ

/-- `srgbToLinear`: sRGB gamma linearization. -/
def srgbToLinear (ops : ColorOps) (c : ℚ) : ℚ :=
  if c ≤ 0.04045 then c / 12.92 else ops.pow24 ((c + 0.055) / 1.055)

/-- `linearToSrgb`: inverse sRGB gamma. -/
def linearToSrgb (ops : ColorOps) (c : ℚ) : ℚ :=
  if c ≤ 0.0031308 then 12.92 * c else 1.055 * ops.powInv24 c - 0.055

/-- Hue normalization applied to the `atan2` result: `if (H < 0) H += 360`. -/
def hueFromAtan2 (H : ℚ) : ℚ := if H < 0 then H + 360 else H

/-- `rgbValuesToOklch`: RGB (0-255) to OKLCH via the OKLab matrices. -/
def rgbValuesToOklch (ops : ColorOps) (r g b : ℚ) : PColor :=
  let r := srgbToLinear ops (r / 255)
  let g := srgbToLinear ops (g / 255)
  let b := srgbToLinear ops (b / 255)
  let l_ := 0.4122214708 * r + 0.5363325363 * g + 0.0514459929 * b
  let m_ := 0.2119034982 * r + 0.6806995451 * g + 0.1073969566 * b
  let s_ := 0.0883024619 * r + 0.2817188376 * g + 0.6299787005 * b
  let l := ops.cbrt l_
  let m := ops.cbrt m_
  let s := ops.cbrt s_
  let L := 0.2104542553 * l + 0.7936177850 * m - 0.0040720468 * s
  let a := 1.9779984951 * l - 2.4285922050 * m + 0.4505937099 * s
  let bLab := 0.0259040371 * l + 0.7827717662 * m - 0.8086757660 * s
  let C := ops.sqrtQ (a * a + bLab * bLab)
  ⟨L, C, hueFromAtan2 (ops.atan2Deg bLab a)⟩

/-- Shared first half of `oklchToRgb`: OKLCH to linear RGB via LMS cubes. -/
def oklchToLinearRgb (ops : ColorOps) (l c h : ℚ) : ℚ × ℚ × ℚ :=
  let a := c * ops.cosDeg h
  let bLab := c * ops.sinDeg h
  let l_ := l + 0.3963377774 * a + 0.2158037573 * bLab
  let m_ := l - 0.1055613458 * a - 0.0638541728 * bLab
  let s_ := l - 0.0894841775 * a - 1.2914855480 * bLab
  let lCubed := l_ * l_ * l_
  let mCubed := m_ * m_ * m_
  let sCubed := s_ * s_ * s_
  (4.0767416621 * lCubed - 3.3077115913 * mCubed + 0.2309699292 * sCubed,
   -1.2684380046 * lCubed + 2.6097574011 * mCubed - 0.3413193965 * sCubed,
   -0.0041960863 * lCubed - 0.7034186147 * mCubed + 1.7076147010 * sCubed)

/-- The 0-255-scale channel values before clamping and rounding; this is the
reading of "channel values before rounding" against which the `inGamut`
bounds `[-0.5, 255.5]` are phrased. -/
def oklchToRgbPre (ops : ColorOps) (l c h : ℚ) : ℚ × ℚ × ℚ :=
  let rgb := oklchToLinearRgb ops l c h
  (linearToSrgb ops rgb.1 * 255, linearToSrgb ops rgb.2.1 * 255,
   linearToSrgb ops rgb.2.2 * 255)

/-- One output channel: `Math.round(Math.max(0, Math.min(1, srgb)) * 255)`. -/
def jsChannel (x : ℚ) : ℕ := (roundJS (clampQ 0 1 x * 255)).toNat

/-- `oklchToRgb`: OKLCH to integer RGB channels, clamped and rounded. -/
def oklchToRgb (ops : ColorOps) (l c h : ℚ) : ℕ × ℕ × ℕ :=
  let rgb := oklchToLinearRgb ops l c h
  (jsChannel (linearToSrgb ops rgb.1), jsChannel (linearToSrgb ops rgb.2.1),
   jsChannel (linearToSrgb ops rgb.2.2))

/-- `inGamut`: the sRGB gamut test with rounding tolerance 0.5. -/
def inGamut (r g b : ℚ) : Bool :=
  decide (-0.5 ≤ r) && decide (r ≤ 255.5) && decide (-0.5 ≤ g) &&
    decide (g ≤ 255.5) && decide (-0.5 ≤ b) && decide (b ≤ 255.5)

/-- One iteration of the `findMaxChroma` binary search on `(minC, maxC, bestC)`,
with `midC = (minC + maxC) / 2`. -/
def fmcStep (ops : ColorOps) (l h : ℚ) (st : ℚ × ℚ × ℚ) : ℚ × ℚ × ℚ :=
  if inGamut ((oklchToRgb ops l ((st.1 + st.2.1) / 2) h).1 : ℚ)
      ((oklchToRgb ops l ((st.1 + st.2.1) / 2) h).2.1 : ℚ)
      ((oklchToRgb ops l ((st.1 + st.2.1) / 2) h).2.2 : ℚ) then
    ((st.1 + st.2.1) / 2, st.2.1, (st.1 + st.2.1) / 2)
  else (st.1, (st.1 + st.2.1) / 2, st.2.2)

/-- `findMaxChroma`: binary search with exactly 8 iterations between `0` and
`idealC`, returning the best midpoint that passed the gamut test. -/
def findMaxChroma (ops : ColorOps) (l h idealC : ℚ) : ℚ :=
  ((fmcStep ops l h)^[8] (0, idealC, 0)).2.2

/-- `quadBezier`: quadratic Bézier interpolation. -/
def quadBezier (a control b t : ℚ) : ℚ :=
  (1 - t) * (1 - t) * a + 2 * (1 - t) * t * control + t * t * b

/-- `lerp`: linear interpolation. -/
def lerp (a b t : ℚ) : ℚ := a + (b - a) * t

/-- `normalizeHue`: reduce a hue into `[0, 360)`. -/
def normalizeHue (h : ℚ) : ℚ :=
  let h := jsMod h 360
  if h < 0 then h + 360 else h

/-- `isWarmColor`: reds, oranges, yellows. -/
def isWarmColor (h : ℚ) : Bool :=
  (decide (0 ≤ h) && decide (h < 120)) || decide (300 < h)

/-- `formatOklch`: CSS `oklch()` text with 1/4/1 decimal places. -/
def formatOklch (l c h : ℚ) : String :=
  "oklch(" ++ toFixedQ 1 (l * 100) ++ "% " ++ toFixedQ 4 c ++ " " ++ toFixedQ 1 h ++ ")"

/-- `n.toString(16).padStart(2, '0')`. -/
def hexByte (n : ℕ) : String :=
  let s := natHexStr n
  String.mk (if s.length < 2 then List.replicate (2 - s.length) '0' ++ s else s)

/-- `formatHex`: `#` followed by three zero-padded lowercase hex bytes. -/
def formatHex (r g b : ℕ) : String := "#" ++ hexByte r ++ hexByte g ++ hexByte b

/-! ### The parser -/

/-- `parseOklch` body: run the regex model, then read the groups; a `%` on
the lightness divides it by 100. -/
def parseOklch (cs : List Char) : Option PColor :=
  match searchMatch oklchMatchAt cs with
  | none => none
  | some g =>
    let l0 := (parseFloatTok g.lTok).getD 0
    let l := if g.pct then l0 / 100 else l0
    some ⟨l, (parseFloatTok g.cTok).getD 0, (parseFloatTok g.hTok).getD 0⟩

/-- Shorthand expansion inside `hexToRgb` (`#abc` to `#aabbcc`, and the
4-digit form likewise). -/
def expandHexDigits (h : List Char) : List Char :=
  match h with
  | [a, b, c] => [a, a, b, b, c, c]
  | [a, b, c, d] => [a, a, b, b, c, c, d, d]
  | _ => h

/-- `parseInt(s, 16)` on the sliced hex string: value of the longest prefix
of hex digits.  When there is none, `parseInt` yields `NaN`, and
`(NaN >> k) & 255` is `0` in JavaScript, which coincides with the value `0`
returned here. -/
def hexIntJS (cs : List Char) : ℕ :=
  hexValN ((cs.dropWhile isWSChar).takeWhile isLowerHexChar)

/-- `hexToRgb`: strip one `#`, expand shorthand, parse the first six digits. -/
def hexToRgb (hex : List Char) : ℕ × ℕ × ℕ :=
  let h := expandHexDigits (replaceFirst '#' hex)
  let num := hexIntJS (h.take 6)
  (num / 2 ^ 16 % 256, num / 2 ^ 8 % 256, num % 256)

/-- `hexToOklch`. -/
def hexToOklch (ops : ColorOps) (hex : List Char) : PColor :=
  let rgb := hexToRgb hex
  rgbValuesToOklch ops (rgb.1 : ℚ) (rgb.2.1 : ℚ) (rgb.2.2 : ℚ)

/-- `rgbToOklch`: regex model plus conversion. -/
def rgbToOklch (ops : ColorOps) (cs : List Char) : Option PColor :=
  match searchMatch rgbMatchAt cs with
  | none => none
  | some t =>
    some (rgbValuesToOklch ops ((parseFloatTok t.t1).getD 0)
      ((parseFloatTok t.t2).getD 0) ((parseFloatTok t.t3).getD 0))

/-- `hueToRgb` helper of the HSL conversion. -/
def hueToRgb (p q t : ℚ) : ℚ :=
  let t := if t < 0 then t + 1 else t
  let t := if t > 1 then t - 1 else t
  if t < 1/6 then p + (q - p) * 6 * t
  else if t < 1/2 then q
  else if t < 2/3 then p + (q - p) * (2/3 - t) * 6
  else p

/-- `hslToRgb` (values 0-1). -/
def hslToRgb (h s l : ℚ) : ℚ × ℚ × ℚ :=
  let hue := h / 360
  if s = 0 then (l, l, l)
  else
    let q := if l < 0.5 then l * (1 + s) else l + s - l * s
    let p := 2 * l - q
    (hueToRgb p q (hue + 1/3), hueToRgb p q hue, hueToRgb p q (hue - 1/3))

/-- `hslToOklch`: regex model, HSL to RGB, then the shared conversion. -/
def hslToOklch (ops : ColorOps) (cs : List Char) : Option PColor :=
  match searchMatch hslMatchAt cs with
  | none => none
  | some t =>
    let h := (parseFloatTok t.t1).getD 0
    let s := (parseFloatTok t.t2).getD 0 / 100
    let l := (parseFloatTok t.t3).getD 0 / 100
    let rgb := hslToRgb h s l
    some (rgbValuesToOklch ops (rgb.1 * 255) (rgb.2.1 * 255) (rgb.2.2 * 255))

/-- The anchored fallback test `/^[0-9a-f]{3,8}$/i` (input is lowercased). -/
def isBareHex (t : List Char) : Bool :=
  decide (3 ≤ t.length) && decide (t.length ≤ 8) && t.all isLowerHexChar

/-- `parseColor`: dispatch on the trimmed, lowercased input; `none` models a
thrown `Error`. -/
def parseColor (ops : ColorOps) (color : String) : Option PColor :=
  if color = "" then none
  else
    let t := jsNorm color
    if listStarts "oklch(".data t then parseOklch t
    else if listStarts "#".data t then some (hexToOklch ops t)
    else if listStarts "rgb".data t then rgbToOklch ops t
    else if listStarts "hsl".data t then hslToOklch ops t
    else if isBareHex t then some (hexToOklch ops ('#' :: t))
    else none

/-- `parseColor` on a possibly missing or non-string argument: the
`!color || typeof color !== 'string'` guard throws for those. -/
def parseColorJ (ops : ColorOps) (color : Option String) : Option PColor :=
  match color with
  | none => none
  | some s => parseColor ops s

/-- `isValidColor`. -/
def isValidColor (ops : ColorOps) (color : String) : Bool :=
  (parseColor ops color).isSome

/-! ### Shade tables -/

/-- `SHADE_LEVELS`: the Tailwind-style scale. -/
def SHADE_LEVELS : List ℕ := [50, 100, 200, 300, 400, 500, 600, 700, 800, 900, 950]

/-- `LIGHTNESS_MAP`: target lightness per shade level. -/
def LIGHTNESS_MAP (level : ℕ) : ℚ :=
  if level = 50 then 0.97
  else if level = 100 then 0.93
  else if level = 200 then 0.87
  else if level = 300 then 0.78
  else if level = 400 then 0.68
  else if level = 500 then 0.55
  else if level = 600 then 0.48
  else if level = 700 then 0.40
  else if level = 800 then 0.32
  else if level = 900 then 0.24
  else if level = 950 then 0.14
  else 0

/-- `CHROMA_SCALE`: chroma retention fraction per shade level. -/
def CHROMA_SCALE (level : ℕ) : ℚ :=
  if level = 50 then 0.15
  else if level = 100 then 0.25
  else if level = 200 then 0.40
  else if level = 300 then 0.65
  else if level = 400 then 0.85
  else if level = 500 then 1.0
  else if level = 600 then 0.95
  else if level = 700 then 0.85
  else if level = 800 then 0.75
  else if level = 900 then 0.60
  else if level = 950 then 0.45
  else 0

/-- `LIGHT_HALF_RANGE = LIGHTNESS_MAP[50] - LIGHTNESS_MAP[500]`. -/
def LIGHT_HALF_RANGE : ℚ := LIGHTNESS_MAP 50 - LIGHTNESS_MAP 500

/-- `DARK_HALF_RANGE = LIGHTNESS_MAP[500] - LIGHTNESS_MAP[950]`. -/
def DARK_HALF_RANGE : ℚ := LIGHTNESS_MAP 500 - LIGHTNESS_MAP 950

/-- `RELATIVE_POSITION`: fractional position of a level within its half of
the lightness map.  The source loop leaves level 500 unset (it is never
read on the smart path, which short-circuits at 500); the embedding maps it
to `0`, the value that makes the redistribution formula the identity there. -/
def RELATIVE_POSITION (level : ℕ) : ℚ :=
  if level < 500 then (LIGHTNESS_MAP level - LIGHTNESS_MAP 500) / LIGHT_HALF_RANGE
  else if 500 < level then (LIGHTNESS_MAP 500 - LIGHTNESS_MAP level) / DARK_HALF_RANGE
  else 0

/-- One entry of `MODE_CONFIG` (with the warm-colour hue shifts). -/
structure ModeConfig where
  hueShiftLight : ℚ
  hueShiftDark : ℚ
  chromaBoost : ℚ
  lightEndChroma : ℚ
  darkEndChroma : ℚ
deriving DecidableEq

/-- `MODE_CONFIG.fixed`. -/
def fixedModeConfig : ModeConfig := ⟨0, 0, 1.0, 0.15, 0.45⟩

/-- `MODE_CONFIG.natural`. -/
def naturalModeConfig : ModeConfig := ⟨5, -15, 1.1, 0.20, 0.40⟩

/-- `MODE_CONFIG.vivid`. -/
def vividModeConfig : ModeConfig := ⟨3, -10, 1.4, 0.35, 0.55⟩

/-- `MODE_CONFIG[mode]` as an optional lookup. -/
def MODE_CONFIG (mode : String) : Option ModeConfig :=
  if mode = "fixed" then some fixedModeConfig
  else if mode = "natural" then some naturalModeConfig
  else if mode = "vivid" then some vividModeConfig
  else none

/-- The members of `Object.prototype`: property names for which the
JavaScript lookup `MODE_CONFIG[mode]` finds a truthy inherited value (a
function, or `Object.prototype` itself for `__proto__`) instead of
`undefined`.  Passing such a mode makes `generateEnhancedShades` throw a
`TypeError` at `config.hueShift.light`. -/
def objectProtoKeys : List String :=
  ["constructor", "hasOwnProperty", "isPrototypeOf", "propertyIsEnumerable",
   "toLocaleString", "toString", "valueOf", "__defineGetter__",
   "__defineSetter__", "__lookupGetter__", "__lookupSetter__", "__proto__"]

/-- Whether a mode string names an inherited `Object.prototype` member. -/
def isObjectProtoKey (mode : String) : Bool := objectProtoKeys.contains mode

/-! ### Shade generation -/

/-- Options of `generateShades` after destructuring with defaults;
`exactMatch = none` models an absent (`undefined`) field. -/
structure GenOptions where
  format : String := "oklch"
  mode : String := "fixed"
  exactMatch : Option Bool := none
deriving DecidableEq

/-- Target lightness of the fixed algorithm: proportional redistribution
around the input lightness on the smart path, the raw table otherwise. -/
def fixedTargetL (smart : Bool) (baseL : ℚ) (level : ℕ) : ℚ :=
  if smart then
    if level < 500 then baseL + RELATIVE_POSITION level * (LIGHTNESS_MAP 50 - baseL)
    else baseL - RELATIVE_POSITION level * (baseL - LIGHTNESS_MAP 950)
  else LIGHTNESS_MAP level

/-- `formatHexFromOklch`. -/
def formatHexFromOklch (ops : ColorOps) (oklch : PColor) : String :=
  let rgb := oklchToRgb ops oklch.l oklch.c oklch.h
  formatHex rgb.1 rgb.2.1 rgb.2.2

/-- One loop body of `generateFixedShades`. -/
def fixedShadeEntry (ops : ColorOps) (base : PColor) (originalColor : String)
    (format : String) (smart : Bool) (level : ℕ) : String :=
  if smart ∧ level = 500 then
    if format = "hex" then
      if listStarts "#".data originalColor.data then originalColor
      else formatHexFromOklch ops base
    else formatOklch base.l base.c base.h
  else
    let targetL := fixedTargetL smart base.l level
    let targetC := base.c * CHROMA_SCALE level
    let safeC := findMaxChroma ops targetL base.h targetC
    if format = "hex" then
      let rgb := oklchToRgb ops targetL safeC base.h
      formatHex rgb.1 rgb.2.1 rgb.2.2
    else formatOklch targetL safeC base.h

/-- `generateFixedShades`: fixed-hue algorithm with smart lightness
redistribution (`smart` is `exactMatch !== false`). -/
def generateFixedShades (ops : ColorOps) (base : PColor) (originalColor : String)
    (format : String) (exactMatch : Option Bool) : List (ℕ × String) :=
  SHADE_LEVELS.map fun level =>
    (level, fixedShadeEntry ops base originalColor format (exactMatch ≠ some false) level)

/-- One loop body of `generateEnhancedShades`, at index `i` of the level list. -/
def enhancedShadeEntry (ops : ColorOps) (base : PColor) (originalColor : String)
    (format : String) (config : ModeConfig) (exactMatch : Option Bool)
    (i level : ℕ) : String :=
  let isWarm := isWarmColor base.h
  let hueShiftLight := if isWarm then config.hueShiftLight else -config.hueShiftLight
  let hueShiftDark := if isWarm then config.hueShiftDark else -config.hueShiftDark
  let lightEnd : PColor :=
    ⟨LIGHTNESS_MAP 50, base.c * config.lightEndChroma, normalizeHue (base.h + hueShiftLight)⟩
  let darkEnd : PColor :=
    ⟨LIGHTNESS_MAP 950, base.c * config.darkEndChroma, normalizeHue (base.h + hueShiftDark)⟩
  let peakChroma := base.c * config.chromaBoost
  if exactMatch ≠ some false ∧ level = 500 then
    if format = "hex" then
      if listStarts "#".data originalColor.data then originalColor
      else formatHexFromOklch ops base
    else formatOklch base.l base.c base.h
  else
    let tlh : ℚ × ℚ × ℚ :=
      if i ≤ 5 then
        let t : ℚ := (i : ℚ) / 5
        let controlC := (lightEnd.c + peakChroma) / 2
        (lerp lightEnd.l base.l t, quadBezier lightEnd.c controlC peakChroma t,
         lerp lightEnd.h base.h t)
      else
        let t : ℚ := ((i : ℚ) - 5) / 5
        let controlC := (peakChroma + darkEnd.c) / 2
        (lerp base.l darkEnd.l t, quadBezier peakChroma controlC darkEnd.c t,
         lerp base.h darkEnd.h t)
    let targetL := tlh.1
    let targetC := tlh.2.1
    let targetH := normalizeHue tlh.2.2
    let safeC := findMaxChroma ops targetL targetH targetC
    if format = "hex" then
      let rgb := oklchToRgb ops targetL safeC targetH
      formatHex rgb.1 rgb.2.1 rgb.2.2
    else formatOklch targetL safeC targetH

/-- `generateEnhancedShades`: hue-shifting curved algorithm, iterating the
level list by index. -/
def generateEnhancedShades (ops : ColorOps) (base : PColor) (originalColor : String)
    (format : String) (config : ModeConfig) (exactMatch : Option Bool) :
    List (ℕ × String) :=
  (List.range SHADE_LEVELS.length).map fun i =>
    let level := SHADE_LEVELS.getD i 0
    (level, enhancedShadeEntry ops base originalColor format config exactMatch i level)

/-- `generateShades`: parse, pick the config (`MODE_CONFIG[mode] ||
MODE_CONFIG.fixed`), then dispatch on `mode === 'fixed'`.  A mode naming an
`Object.prototype` member makes the lookup return a truthy non-config, and
the enhanced algorithm then throws a `TypeError` dereferencing
`config.hueShift.light`: modelled as `none`. -/
def generateShades (ops : ColorOps) (color : String) (options : GenOptions) :
    Option (List (ℕ × String)) :=
  match parseColor ops color with
  | none => none
  | some base =>
    if options.mode = "fixed" then
      some (generateFixedShades ops base color options.format options.exactMatch)
    else
      match MODE_CONFIG options.mode with
      | some config =>
        some (generateEnhancedShades ops base color options.format config options.exactMatch)
      | none =>
        if isObjectProtoKey options.mode then none
        else
          some (generateEnhancedShades ops base color options.format fixedModeConfig
            options.exactMatch)

/-! ### Palette generation -/

/-- Primitive JavaScript values that can sit in a colour-config object. -/
inductive JVal where
  | vstr (s : String)
  | vnum (q : ℚ)
  | vbool (b : Bool)
  | vnull
deriving DecidableEq

/-- JavaScript truthiness of a `JVal`. -/
def JVal.truthy : JVal → Bool
  | .vstr s => s ≠ ""
  | .vnum q => q ≠ 0
  | .vbool b => b
  | .vnull => false

/-- One value of the `colors` mapping handed to `generatePalettes`: either a
primitive or an object of primitive-valued fields. -/
inductive ColorEntry where
  | prim (v : JVal)
  | obj (fields : List (String × JVal))
deriving DecidableEq

/-- A value of the returned palette set: a verbatim pass-through object or a
generated ramp. -/
inductive PaletteValue where
  | passthrough (fields : List (String × JVal))
  | ramp (shades : List (ℕ × String))
deriving DecidableEq

/-- `!isNaN(parseInt(k))`: after whitespace and an optional sign, `parseInt`
finds a decimal digit, or a `0x`/`0X` prefix followed by a hex digit. -/
def jsKeyNumeric (k : String) : Bool :=
  let cs := k.data.dropWhile isWSChar
  let cs := match cs with
    | '+' :: r => r
    | '-' :: r => r
    | r => r
  match cs with
  | [] => false
  | c1 :: rest =>
    if c1 = '0' then
      match rest with
      | x :: rest2 =>
        if x = 'x' ∨ x = 'X' then
          match rest2 with
          | d :: _ => d.isDigit || ('a' ≤ d && d ≤ 'f') || ('A' ≤ d && d ≤ 'F')
          | [] => false
        else true
      | [] => true
    else c1.isDigit

/-- Field lookup in a config object. -/
def fieldLookup (fields : List (String × JVal)) (k : String) : Option JVal :=
  (fields.find? fun f => f.1 = k).map Prod.snd

/-- Truthiness of the `base` field of a config object (`colorConfig.base`,
absent fields being `undefined` hence falsy). -/
def baseTruthy (fields : List (String × JVal)) : Bool :=
  ((fieldLookup fields "base").map JVal.truthy).getD false

/-- The merged options `{...options, ...colorOptions}` restricted to the
three recognized fields.  A present `exactMatch` of any value other than
the literal `false` behaves as `true` (the generators test
`exactMatch !== false`); a non-string `mode`/`format` can never equal the
recognized literals, which the sentinel below also never does. -/
def entryOptions (defaults : GenOptions) (fields : List (String × JVal)) : GenOptions :=
  { format := match fieldLookup fields "format" with
      | some (.vstr s) => s
      | some _ => "[non-string]"
      | none => defaults.format
    mode := match fieldLookup fields "mode" with
      | some (.vstr s) => s
      | some _ => "[non-string]"
      | none => defaults.mode
    exactMatch := match fieldLookup fields "exactMatch" with
      | some v => some (v ≠ JVal.vbool false)
      | none => defaults.exactMatch }

/-- `generatePalettes`: shape-dispatch per named entry; `none` models an
error thrown by `generateShades` escaping the loop. -/
def generatePalettes (ops : ColorOps) (colors : List (String × ColorEntry))
    (options : GenOptions) : Option (List (String × PaletteValue)) :=
  match colors with
  | [] => some []
  | (name, ColorEntry.obj fields) :: rest =>
    if ¬ baseTruthy fields ∧ fields.any (fun f => jsKeyNumeric f.1) then
      (generatePalettes ops rest options).map
        fun ps => (name, PaletteValue.passthrough fields) :: ps
    else if baseTruthy fields then
      match fieldLookup fields "base" with
      | some (JVal.vstr baseStr) =>
        match generateShades ops baseStr (entryOptions options fields) with
        | none => none
        | some r =>
          (generatePalettes ops rest options).map fun ps => (name, PaletteValue.ramp r) :: ps
      | _ => none
    else generatePalettes ops rest options
  | (name, ColorEntry.prim (JVal.vstr s)) :: rest =>
    match generateShades ops s options with
    | none => none
    | some r =>
      (generatePalettes ops rest options).map fun ps => (name, PaletteValue.ramp r) :: ps
  | (_, ColorEntry.prim _) :: rest => generatePalettes ops rest options

/-- `getShadeLevels` (the returned copy, as a value). -/
def getShadeLevels : List ℕ := SHADE_LEVELS

/-- `getAvailableModes`. -/
def getAvailableModes : List String := ["fixed", "natural", "vivid"]

/-! ### A concrete instantiation of the primitives

`defaultOps` instantiates `ColorOps` with computable rational
approximations (dyadic binary search for the roots, the Bhaskara sine
approximation, a bounded rational arctangent).  It exists so that witnesses
and counterexamples can be evaluated on concrete inputs; every theorem that
depends on analytic properties of the real primitives quantifies over the
operations instead. -/

/-- Fueled binary search for the largest `y` in `[lo, hi]` with `y ^ p ≤ x`. -/
def rootGo (p : ℕ) (x : ℚ) : ℕ → ℚ → ℚ → ℚ
  | 0, lo, _ => lo
  | f + 1, lo, hi =>
    let mid := (lo + hi) / 2
    if mid ^ p ≤ x then rootGo p x f mid hi else rootGo p x f lo mid

/-- Dyadic approximation of `x ^ (1/p)` for `x ≥ 0` (`hi` is a crude bound). -/
def rootApprox (p : ℕ) (x : ℚ) : ℚ :=
  if x ≤ 0 then 0 else rootGo p x 16 0 (max 1 x)

/-- Bhaskara rational approximation of `sin` on degrees in `[0, 180]`. -/
def bhalf (t : ℚ) : ℚ := 4 * t * (180 - t) / (40500 - t * (180 - t))

/-- Approximate sine of an angle in degrees (range-reduced). -/
def sinDegApprox (x : ℚ) : ℚ :=
  let d := normalizeHue x
  if d ≤ 180 then bhalf d else -bhalf (d - 180)

/-- Bounded rational approximation of `atan` in degrees, inside `(-90, 90)`. -/
def atan1 (t : ℚ) : ℚ := 90 * t / (1 + |t|)

/-- Approximate `atan2` in degrees, with range `(-180, 180]`. -/
def atan2Approx (y x : ℚ) : ℚ :=
  if 0 < x then atan1 (y / x)
  else if x < 0 then (if 0 ≤ y then atan1 (y / x) + 180 else atan1 (y / x) - 180)
  else if 0 < y then 90
  else if y < 0 then -90
  else 0

/-- The concrete primitive instantiation used for witnesses. -/
def defaultOps : ColorOps where
  cbrt x := if x < 0 then -rootApprox 3 (-x) else rootApprox 3 x
  sqrtQ x := rootApprox 2 x
  pow24 x := if x ≤ 0 then 0 else rootGo 5 (x ^ 12) 16 0 (max 1 (x * x * x))
  powInv24 x := if x ≤ 0 then 0 else rootGo 12 (x ^ 5) 16 0 (max 1 x)
  sinDeg := sinDegApprox
  cosDeg x := sinDegApprox (x + 90)
  atan2Deg := atan2Approx

/-! ### Predicates used to state the claims -/

/-- ASCII lowercase of a string (for case-insensitive comparison). -/
def toLowerStr (s : String) : String := String.mk (s.data.map jsLowerChar)

/-- The hex output contract: `#` followed by exactly six lowercase
hexadecimal digits. -/
def isCanonicalHex (s : String) : Bool :=
  match s.data with
  | '#' :: rest => decide (rest.length = 6) && rest.all isLowerHexChar
  | _ => false

/-- Hex digit counts admitted by the claim's reading of the grammar. -/
def claimHexLen (n : ℕ) : Bool := n = 3 || n = 4 || n = 6 || n = 8

/-- The set of notations as described by claim C4: hex of exactly 3, 4, 6 or
8 digits with or without `#`, or a successfully matching `rgb()`/`rgba()`,
`hsl()`/`hsla()` or `oklch()` expression. -/
def claimRecognized (s : String) : Bool :=
  let t := jsNorm s
  (match t with
   | '#' :: rest => claimHexLen rest.length && rest.all isLowerHexChar
   | _ => claimHexLen t.length && t.all isLowerHexChar)
  || (listStarts "oklch(".data t && (searchMatch oklchMatchAt t).isSome)
  || (listStarts "rgb".data t && (searchMatch rgbMatchAt t).isSome)
  || (listStarts "hsl".data t && (searchMatch hslMatchAt t).isSome)

/-- The texts `parseColor` actually accepts, stated as a plain disjunction:
a matching `oklch()` body, anything starting with `#`, a matching
`rgb`/`hsl` body, or 3 to 8 bare hex digits. -/
def acceptedAmended (s : String) : Bool :=
  !decide (s = "") &&
    (let t := jsNorm s
     (listStarts "oklch(".data t && (searchMatch oklchMatchAt t).isSome)
     || listStarts "#".data t
     || (listStarts "rgb".data t && (searchMatch rgbMatchAt t).isSome)
     || (listStarts "hsl".data t && (searchMatch hslMatchAt t).isSome)
     || isBareHex t)

/-- The omission condition as worded by claim C10: neither a string, nor an
object carrying a `base` field, nor an object with a numeric-looking key. -/
def claimOmitted : ColorEntry → Bool
  | .prim (.vstr _) => false
  | .prim _ => true
  | .obj fields =>
    !(fields.any fun f => decide (f.1 = "base")) &&
      !(fields.any fun f => jsKeyNumeric f.1)

/-- The entries `generatePalettes` actually keeps: strings, objects with a
truthy `base`, and base-less objects with at least one numeric-looking key. -/
def keptEntry : ColorEntry → Bool
  | .prim (.vstr _) => true
  | .prim _ => false
  | .obj fields =>
    baseTruthy fields || (!baseTruthy fields && fields.any fun f => jsKeyNumeric f.1)

/-- The lightness values of the fixed-mode smart ramp, in level order. -/
def fixedRampLs (baseL : ℚ) : List ℚ := SHADE_LEVELS.map (fixedTargetL true baseL)

/-- Every numeric token matched by the oklch regex carries a digit, so none
of its `parseFloat` calls yields `NaN`. -/
def oklchTokensClean (cs : List Char) : Bool :=
  match searchMatch oklchMatchAt cs with
  | none => true
  | some g => (parseFloatTok g.lTok).isSome && (parseFloatTok g.cTok).isSome &&
      (parseFloatTok g.hTok).isSome

/-- Every numeric token matched by the rgb regex carries a digit. -/
def rgbTokensClean (cs : List Char) : Bool :=
  match searchMatch rgbMatchAt cs with
  | none => true
  | some t => (parseFloatTok t.t1).isSome && (parseFloatTok t.t2).isSome &&
      (parseFloatTok t.t3).isSome

/-- Every numeric token matched by the hsl regex carries a digit. -/
def hslTokensClean (cs : List Char) : Bool :=
  match searchMatch hslMatchAt cs with
  | none => true
  | some t => (parseFloatTok t.t1).isSome && (parseFloatTok t.t2).isSome &&
      (parseFloatTok t.t3).isSome

/-- The inputs on which `parseColor` performs no `NaN`-producing
`parseFloat`: on the branch the dispatch takes, every matched numeric token
contains a digit (hex branches never call `parseFloat`).  On this domain
the embedding's `0`-for-`NaN` substitution never fires and the model
follows the program exactly; outside it, JavaScript propagates `NaN`
through the returned color and the ramps derived from it. -/
def parseClean (s : String) : Bool :=
  let t := jsNorm s
  if listStarts "oklch(".data t then oklchTokensClean t
  else if listStarts "#".data t then true
  else if listStarts "rgb".data t then rgbTokensClean t
  else if listStarts "hsl".data t then hslTokensClean t
  else true

/-! ## Lemmas

Several core `Rat` operations carry `@[irreducible]`; the claims below are
settled partly by evaluation, so we restore default reducibility for them
inside this file. -/

attribute [local semireducible] Rat.add Rat.mul Rat.inv Rat.sub Rat.ofScientific

/-! ### Character classes -/

theorem char_le_iff {a b : Char} : a ≤ b ↔ a.toNat ≤ b.toNat := Iff.rfl

theorem isDigit_iff {c : Char} : c.isDigit = true ↔ 48 ≤ c.toNat ∧ c.toNat ≤ 57 := by
  simp [Char.isDigit, char_le_iff]
  rfl

theorem isTok_not_ws {c : Char} (h : isTokChar c = true) : isWSChar c = false := by
  rcases Bool.or_eq_true_iff.1 h with hd | hdot
  · have hb := (isDigit_iff.1 hd)
    simp only [isWSChar, Bool.or_eq_false_iff, decide_eq_false_iff_not]
    refine ⟨⟨⟨⟨⟨?_, ?_⟩, ?_⟩, ?_⟩, ?_⟩, ?_⟩ <;>
      · intro hc; subst hc; revert hb; decide
  · have : c = '.' := by simpa using hdot
    subst this; decide

theorem isTok_lower {c : Char} (h : isTokChar c = true) : jsLowerChar c = c := by
  rcases Bool.or_eq_true_iff.1 h with hd | hdot
  · have hb := (isDigit_iff.1 hd)
    unfold jsLowerChar
    have : ('A' ≤ c && c ≤ 'Z') = false := by
      simp only [Bool.and_eq_false_iff, decide_eq_false_iff_not, char_le_iff]
      have h65 : 'A'.toNat = 65 := rfl
      left; omega
    simp [this]
  · have : c = '.' := by simpa using hdot
    subst this; decide

/-! ### List helpers for the matcher proofs -/

theorem takeWhile_app_of_all {p : Char → Bool} {xs : List Char} (ys : List Char)
    (h : ∀ a ∈ xs, p a = true) :
    (xs ++ ys).takeWhile p = xs ++ ys.takeWhile p := by
  induction xs with
  | nil => simp
  | cons a xs ih =>
    have ha := h a (List.mem_cons_self a xs)
    simp only [List.cons_append, List.takeWhile_cons, ha, if_true]
    rw [ih fun b hb => h b (List.mem_cons_of_mem a hb)]

theorem takeWhile_nil_of_head {p : Char → Bool} {y : Char} (ys : List Char)
    (h : p y = false) : (y :: ys).takeWhile p = [] := by
  simp [List.takeWhile_cons, h]

theorem dropWhile_app_of_all {p : Char → Bool} {xs : List Char} (ys : List Char)
    (h : ∀ a ∈ xs, p a = true) :
    (xs ++ ys).dropWhile p = ys.dropWhile p := by
  induction xs with
  | nil => simp
  | cons a xs ih =>
    have ha := h a (List.mem_cons_self a xs)
    simp only [List.cons_append, List.dropWhile_cons, ha, if_true]
    exact ih fun b hb => h b (List.mem_cons_of_mem a hb)

theorem dropWhile_cons_of_neg {p : Char → Bool} {y : Char} (ys : List Char)
    (h : p y = false) : (y :: ys).dropWhile p = y :: ys := by
  simp [List.dropWhile_cons, h]

theorem stripLit_append (ls rest : List Char) : stripLit ls (ls ++ rest) = some rest := by
  induction ls with
  | nil => rfl
  | cons a ls ih => simpa [stripLit] using ih

theorem searchMatch_of_match {α : Type} {f : List Char → Option α} {cs : List Char}
    {a : α} (h : f cs = some a) : searchMatch f cs = some a := by
  cases cs with
  | nil => simpa [searchMatch] using h
  | cons c cs => simp [searchMatch, h]

/-! ### Digit strings render and parse back correctly -/

theorem digitVal_hexDigitChar : ∀ d < 10, digitVal (hexDigitChar d) = d := by decide

theorem isDigit_hexDigitChar : ∀ d < 10, (hexDigitChar d).isDigit = true := by decide

theorem digitsFold (a : ℕ) (ys : List Char) :
    ys.foldl (fun a c => 10 * a + digitVal c) a = a * 10 ^ ys.length + digitsValN ys := by
  induction ys generalizing a with
  | nil => simp [digitsValN]
  | cons c ys ih =>
    simp only [List.foldl_cons, digitsValN, List.length_cons]
    rw [show 10 * 0 + digitVal c = digitVal c by ring, ih (10 * a + digitVal c),
      ih (digitVal c)]
    ring

theorem digitsValN_append (xs ys : List Char) :
    digitsValN (xs ++ ys) = digitsValN xs * 10 ^ ys.length + digitsValN ys := by
  unfold digitsValN
  rw [List.foldl_append]
  exact digitsFold _ ys

theorem takeWhile_all {p : Char → Bool} {xs : List Char} (h : ∀ a ∈ xs, p a = true) :
    xs.takeWhile p = xs := by
  have := takeWhile_app_of_all (p := p) [] h
  simpa using this

theorem natDigitsAux_correct : ∀ f n, n < 10 ^ f → digitsValN (natDigitsAux 10 f n) = n := by
  intro f
  induction f with
  | zero =>
    intro n hn
    interval_cases n
    rfl
  | succ f ih =>
    intro n hn
    by_cases h : n < 10
    · simp only [natDigitsAux, if_pos h, digitsValN, List.foldl_cons, List.foldl_nil]
      simpa using digitVal_hexDigitChar n h
    · simp only [natDigitsAux, if_neg h]
      rw [digitsValN_append]
      have hd : n / 10 < 10 ^ f := by
        rw [Nat.div_lt_iff_lt_mul (by norm_num)]
        calc n < 10 ^ (f + 1) := hn
        _ = 10 ^ f * 10 := by ring
      rw [ih _ hd]
      have hm : digitsValN [hexDigitChar (n % 10)] = n % 10 := by
        simp [digitsValN, digitVal_hexDigitChar (n % 10) (Nat.mod_lt n (by norm_num))]
      rw [hm]
      simp only [List.length_singleton, pow_one]
      omega

theorem natDigitsAux_digits : ∀ f n c, c ∈ natDigitsAux 10 f n → c.isDigit = true := by
  intro f
  induction f with
  | zero => intro n c hc; simp [natDigitsAux] at hc
  | succ f ih =>
    intro n c hc
    by_cases h : n < 10
    · simp only [natDigitsAux, if_pos h, List.mem_singleton] at hc
      subst hc
      exact isDigit_hexDigitChar n h
    · simp only [natDigitsAux, if_neg h, List.mem_append, List.mem_singleton] at hc
      rcases hc with hc | hc
      · exact ih _ _ hc
      · subst hc
        exact isDigit_hexDigitChar _ (Nat.mod_lt n (by norm_num))

theorem natDecimal_correct (n : ℕ) : digitsValN (natDecimal n) = n :=
  natDigitsAux_correct (n + 1) n
    (lt_of_lt_of_le (Nat.lt_pow_self (by norm_num) n) (Nat.pow_le_pow_right (by norm_num) (by omega)))

theorem natDecimal_digits {n : ℕ} {c : Char} (hc : c ∈ natDecimal n) : c.isDigit = true :=
  natDigitsAux_digits (n + 1) n c hc

theorem natDecimal_ne_nil (n : ℕ) : natDecimal n ≠ [] := by
  unfold natDecimal natDigitsAux
  by_cases h : n < 10 <;> simp [h]

theorem digitsValN_replicate_zero (k : ℕ) : digitsValN (List.replicate k '0') = 0 := by
  induction k with
  | zero => rfl
  | succ k ih =>
    have : List.replicate (k + 1) '0' = List.replicate k '0' ++ ['0'] := by
      rw [List.replicate_succ']
    rw [this, digitsValN_append, ih]
    rfl

/-- The padded digit list used by `toFixedNat`. -/
def paddedDigits (n m : ℕ) : List Char :=
  let ds := natDecimal m
  if ds.length ≤ n then List.replicate (n + 1 - ds.length) '0' ++ ds else ds

theorem paddedDigits_val (n m : ℕ) : digitsValN (paddedDigits n m) = m := by
  unfold paddedDigits
  by_cases h : (natDecimal m).length ≤ n
  · simp only [h, if_true]
    rw [digitsValN_append, digitsValN_replicate_zero, natDecimal_correct]
    ring
  · simp [h, natDecimal_correct]

theorem paddedDigits_digits {n m : ℕ} {c : Char} (hc : c ∈ paddedDigits n m) :
    c.isDigit = true := by
  unfold paddedDigits at hc
  by_cases h : (natDecimal m).length ≤ n
  · simp only [h, if_true, List.mem_append] at hc
    rcases hc with hc | hc
    · have := List.eq_of_mem_replicate hc
      subst this; decide
    · exact natDecimal_digits hc
  · simp only [h, if_false] at hc
    exact natDecimal_digits hc

theorem paddedDigits_length {n m : ℕ} : n + 1 ≤ (paddedDigits n m).length := by
  unfold paddedDigits
  have hne := natDecimal_ne_nil m
  have hpos : 1 ≤ (natDecimal m).length := by
    cases hh : natDecimal m with
    | nil => exact absurd hh hne
    | cons a l => simp
  by_cases h : (natDecimal m).length ≤ n
  · simp only [h, if_true, List.length_append, List.length_replicate]
    omega
  · simp only [h, if_false]
    omega

theorem toFixedNat_data (n m : ℕ) (hn : n ≠ 0) :
    (toFixedNat n m).data =
      (paddedDigits n m).take ((paddedDigits n m).length - n) ++
        '.' :: (paddedDigits n m).drop ((paddedDigits n m).length - n) := by
  unfold toFixedNat
  simp only [if_neg hn]
  show (String.mk _ ++ "." ++ String.mk _).data = _
  rw [String.data_append, String.data_append]
  simp [paddedDigits]

theorem parseFloatTok_toFixedNat (n m : ℕ) (hn : n ≠ 0) :
    parseFloatTok (toFixedNat n m).data = some ((m : ℚ) / 10 ^ n) := by
  rw [toFixedNat_data n m hn]
  have hlen := paddedDigits_length (n := n) (m := m)
  set ds := paddedDigits n m with hds
  set k := ds.length - n with hk
  set ip := ds.take k with hip0
  set fp := ds.drop k with hfp0
  have hip : ∀ a ∈ ip, a.isDigit = true := fun a ha =>
    paddedDigits_digits (List.take_subset k ds ha)
  have hfp : ∀ a ∈ fp, a.isDigit = true := fun a ha =>
    paddedDigits_digits (List.drop_subset k ds ha)
  have hiplen : ip.length = k := by
    rw [hip0, List.length_take]
    omega
  have hipne : ip.isEmpty = false := by
    cases hh : ip with
    | nil =>
      rw [hh] at hiplen
      simp at hiplen
      omega
    | cons a l => rfl
  have h1 : (ip ++ '.' :: fp).takeWhile (fun c => c.isDigit) = ip := by
    rw [takeWhile_app_of_all _ hip, takeWhile_nil_of_head _ (by decide), List.append_nil]
  unfold parseFloatTok
  simp only [h1, hiplen, ← hip0]
  rw [show k = ip.length by omega, List.drop_left]
  simp only [hipne, Bool.false_and, if_neg Bool.false_ne_true]
  rw [takeWhile_all hfp]
  have hfplen : fp.length = n := by
    rw [hfp0, List.length_drop]
    omega
  have hsplit : digitsValN ip * 10 ^ fp.length + digitsValN fp = m := by
    rw [← digitsValN_append, hip0, hfp0, List.take_append_drop]
    exact paddedDigits_val n m
  rw [hfplen] at hsplit ⊢
  congr 1
  have h10 : ((10 : ℚ) ^ n) ≠ 0 := by positivity
  field_simp
  push_cast [← hsplit]
  ring

theorem roundJS_nonneg {x : ℚ} (hx : 0 ≤ x) : 0 ≤ roundJS x := by
  unfold roundJS
  rw [Int.le_floor]
  push_cast
  linarith

theorem roundJS_err (x : ℚ) : |(roundJS x : ℚ) - x| ≤ 1/2 := by
  unfold roundJS
  have h1 := Int.floor_le (x + 1/2)
  have h2 := Int.lt_floor_add_one (x + 1/2)
  rw [abs_le]
  constructor <;> linarith

theorem parseFloatTok_toFixedQ {n : ℕ} (hn : n ≠ 0) {x : ℚ} (hx : 0 ≤ x) :
    parseFloatTok (toFixedQ n x).data = some ((roundJS (x * 10 ^ n) : ℚ) / 10 ^ n) := by
  unfold toFixedQ
  rw [if_neg (not_lt.2 hx)]
  rw [parseFloatTok_toFixedNat _ _ hn]
  have hnn : 0 ≤ roundJS (x * 10 ^ n) := roundJS_nonneg (by positivity)
  have h2 : (((roundJS (x * 10 ^ n)).toNat : ℕ) : ℚ) = ((roundJS (x * 10 ^ n) : ℤ) : ℚ) := by
    rw [← Int.cast_natCast, Int.toNat_of_nonneg hnn]
  rw [h2]

theorem toFixedQ_shape {n : ℕ} (hn : n ≠ 0) {x : ℚ} (hx : 0 ≤ x) :
    ∃ d t, (toFixedQ n x).data = d :: t ∧ d.isDigit = true ∧
      ∀ c ∈ (toFixedQ n x).data, isTokChar c = true := by
  unfold toFixedQ
  rw [if_neg (not_lt.2 hx)]
  set m := Int.toNat (roundJS (x * 10 ^ n)) with hm
  rw [toFixedNat_data n m hn]
  have hlen := paddedDigits_length (n := n) (m := m)
  set ds := paddedDigits n m with hds
  set k := ds.length - n with hk
  have htok : ∀ c ∈ ds.take k ++ '.' :: ds.drop k, isTokChar c = true := by
    intro c hc
    rcases List.mem_append.1 hc with hc | hc
    · have := paddedDigits_digits (List.take_subset k ds hc)
      simp [isTokChar, this]
    · rcases List.mem_cons.1 hc with hc | hc
      · subst hc; decide
      · have := paddedDigits_digits (List.drop_subset k ds hc)
        simp [isTokChar, this]
  obtain ⟨d, t, hdt⟩ : ∃ d t, ds = d :: t := by
    cases hh : ds with
    | nil =>
      exfalso
      rw [hh] at hlen
      simp at hlen
    | cons d t => exact ⟨d, t, rfl⟩
  have hk1 : 1 ≤ k := by omega
  obtain ⟨k1, hk1e⟩ : ∃ k1, k = k1 + 1 := ⟨k - 1, by omega⟩
  refine ⟨d, t.take k1 ++ '.' :: (d :: t).drop k, ?_, ?_, ?_⟩
  · rw [hdt, hk1e]
    simp [List.take_cons, hk1e]
  · exact paddedDigits_digits (hdt ▸ List.mem_cons_self d t)
  · exact htok

/-! ### The oklch matcher on canonically formatted strings -/

theorem listStarts_append (p r : List Char) : listStarts p (p ++ r) = true := by
  induction p with
  | nil => rfl
  | cons a p ih => simpa [listStarts] using ih

theorem takeTok_canonical {A : List Char} (hA : ∀ c ∈ A, isTokChar c = true)
    (hAne : A ≠ []) {b : Char} (hb : isTokChar b = false) (X : List Char) :
    takeTok (A ++ b :: X) = some (A, b :: X) := by
  obtain ⟨a, A2, rfl⟩ : ∃ a A2, A = a :: A2 := by
    cases A with
    | nil => exact absurd rfl hAne
    | cons x xs => exact ⟨x, xs, rfl⟩
  unfold takeTok
  rw [takeWhile_app_of_all _ hA, takeWhile_nil_of_head _ hb, List.append_nil, List.drop_left]
  simp

theorem takeRun_single {p : Char → Bool} {w d : Char} (hw : p w = true) (hd : p d = false)
    (X : List Char) : takeRun p (w :: d :: X) = some (d :: X) := by
  unfold takeRun
  rw [List.takeWhile_cons, if_pos hw, takeWhile_nil_of_head _ hd]
  simp

theorem oklchMatchAt_canonical {A B C : List Char}
    (hA : ∀ c ∈ A, isTokChar c = true) (hB : ∀ c ∈ B, isTokChar c = true)
    (hC : ∀ c ∈ C, isTokChar c = true)
    (hAne : A ≠ []) (hBne : B ≠ []) (hCne : C ≠ []) :
    oklchMatchAt ("oklch(".data ++ (A ++ '%' :: ' ' :: (B ++ ' ' :: (C ++ [')'])))) =
      some ⟨A, true, B, C⟩ := by
  obtain ⟨b, B2, rfl⟩ : ∃ b B2, B = b :: B2 := by
    cases B with
    | nil => exact absurd rfl hBne
    | cons x xs => exact ⟨x, xs, rfl⟩
  obtain ⟨c0, C2, rfl⟩ : ∃ c0 C2, C = c0 :: C2 := by
    cases C with
    | nil => exact absurd rfl hCne
    | cons x xs => exact ⟨x, xs, rfl⟩
  have hb : isTokChar b = true := hB b (List.mem_cons_self _ _)
  have hc0 : isTokChar c0 = true := hC c0 (List.mem_cons_self _ _)
  have e2 : (A ++ '%' :: ' ' :: ((b :: B2) ++ ' ' :: ((c0 :: C2) ++ [')']))).dropWhile
      isWSChar = A ++ '%' :: ' ' :: ((b :: B2) ++ ' ' :: ((c0 :: C2) ++ [')'])) := by
    obtain ⟨a, A2, rfl⟩ : ∃ a A2, A = a :: A2 := by
      cases A with
      | nil => exact absurd rfl hAne
      | cons x xs => exact ⟨x, xs, rfl⟩
    rw [List.cons_append]
    exact dropWhile_cons_of_neg _ (isTok_not_ws (hA a (List.mem_cons_self _ _)))
  have e3 := takeTok_canonical hA hAne (b := '%') (by decide)
    (' ' :: ((b :: B2) ++ ' ' :: ((c0 :: C2) ++ [')'])))
  have e4 : (' ' :: ((b :: B2) ++ ' ' :: ((c0 :: C2) ++ [')']))) =
      ' ' :: b :: (B2 ++ ' ' :: ((c0 :: C2) ++ [')'])) := by simp
  have e5 := takeRun_single (p := isWSChar) (w := ' ') (d := b) (by decide) (isTok_not_ws hb)
    (B2 ++ ' ' :: ((c0 :: C2) ++ [')']))
  have e6 := takeTok_canonical hB hBne (b := ' ') (by decide) ((c0 :: C2) ++ [')'])
  have e7 := takeRun_single (p := isWSChar) (w := ' ') (d := c0) (by decide) (isTok_not_ws hc0)
    (C2 ++ [')'])
  have e8 := takeTok_canonical hC hCne (b := ')') (by decide) ([] : List Char)
  have e9 : skipLit "deg".data [')'] = [')'] := by decide
  have e10 : ([')'] : List Char).dropWhile isWSChar = [')'] := by decide
  unfold oklchMatchAt
  rw [stripLit_append, Option.some_bind, e2, e3, Option.some_bind]
  show (takeRun isWSChar (' ' :: ((b :: B2) ++ ' ' :: ((c0 :: C2) ++ [')'])))).bind _ = _
  rw [e4, e5, Option.some_bind]
  rw [List.cons_append] at e6
  rw [e6, Option.some_bind]
  show (takeRun isWSChar (' ' :: ((c0 :: C2) ++ [')']))).bind _ = _
  have e11 : (' ' :: ((c0 :: C2) ++ [')'])) = ' ' :: c0 :: (C2 ++ [')']) := by simp
  rw [e11, e7, Option.some_bind]
  rw [List.cons_append] at e8
  rw [e8, Option.some_bind, e9, e10]
  rfl

/-! ### Parsing back a formatted oklch value -/

theorem map_lower_of_tok {xs : List Char} (h : ∀ c ∈ xs, isTokChar c = true) :
    xs.map jsLowerChar = xs := by
  induction xs with
  | nil => rfl
  | cons a xs ih =>
    rw [List.map_cons, isTok_lower (h a (List.mem_cons_self _ _)),
      ih fun b hb => h b (List.mem_cons_of_mem a hb)]

theorem jsTrim_sandwich {a z : Char} (mid : List Char) (ha : isWSChar a = false)
    (hz : isWSChar z = false) : jsTrim (a :: (mid ++ [z])) = a :: (mid ++ [z]) := by
  unfold jsTrim
  rw [dropWhile_cons_of_neg _ ha]
  have h1 : (a :: (mid ++ [z])).reverse = z :: (mid.reverse ++ [a]) := by simp
  rw [h1, dropWhile_cons_of_neg _ hz, ← h1, List.reverse_reverse]

theorem formatOklch_data (l c h : ℚ) :
    (formatOklch l c h).data = "oklch(".data ++ ((toFixedQ 1 (l * 100)).data ++
      '%' :: ' ' :: ((toFixedQ 4 c).data ++ ' ' :: ((toFixedQ 1 h).data ++ [')']))) := by
  unfold formatOklch
  repeat rw [String.data_append]
  rw [show ("% ").data = ['%', ' '] from rfl, show (" ").data = [' '] from rfl,
    show (")").data = [')'] from rfl]
  simp [List.append_assoc]

theorem jsNorm_formatOklch {l c h : ℚ} (hl : 0 ≤ l) (hc : 0 ≤ c) (hh : 0 ≤ h) :
    jsNorm (formatOklch l c h) = (formatOklch l c h).data := by
  obtain ⟨dA, tA, hAe, hAd, hAtok⟩ :=
    toFixedQ_shape (x := l * 100) one_ne_zero (mul_nonneg hl (by norm_num))
  obtain ⟨dB, tB, hBe, hBd, hBtok⟩ := toFixedQ_shape (n := 4) (x := c) (by norm_num) hc
  obtain ⟨dC, tC, hCe, hCd, hCtok⟩ := toFixedQ_shape (x := h) one_ne_zero hh
  have hdata := formatOklch_data l c h
  have hshape : (formatOklch l c h).data =
      'o' :: (('k' :: 'l' :: 'c' :: 'h' :: '(' :: ((toFixedQ 1 (l * 100)).data ++
        '%' :: ' ' :: ((toFixedQ 4 c).data ++ ' ' :: (toFixedQ 1 h).data))) ++ [')']) := by
    rw [hdata]
    simp
  unfold jsNorm
  rw [hshape, jsTrim_sandwich _ (by decide) (by decide), ← hshape, hdata]
  simp only [List.map_append, List.map_cons, List.map_nil, map_lower_of_tok hAtok,
    map_lower_of_tok hBtok, map_lower_of_tok hCtok]
  rfl

theorem parseOklch_formatOklch {l c h : ℚ} (hl : 0 ≤ l) (hc : 0 ≤ c) (hh : 0 ≤ h) :
    parseOklch (formatOklch l c h).data =
      some ⟨(roundJS (l * 100 * 10 ^ 1) : ℚ) / 10 ^ 1 / 100,
            (roundJS (c * 10 ^ 4) : ℚ) / 10 ^ 4,
            (roundJS (h * 10 ^ 1) : ℚ) / 10 ^ 1⟩ := by
  obtain ⟨dA, tA, hAe, hAd, hAtok⟩ :=
    toFixedQ_shape (x := l * 100) one_ne_zero (mul_nonneg hl (by norm_num))
  obtain ⟨dB, tB, hBe, hBd, hBtok⟩ := toFixedQ_shape (n := 4) (x := c) (by norm_num) hc
  obtain ⟨dC, tC, hCe, hCd, hCtok⟩ := toFixedQ_shape (x := h) one_ne_zero hh
  have hAne : (toFixedQ 1 (l * 100)).data ≠ [] := by rw [hAe]; exact List.cons_ne_nil _ _
  have hBne : (toFixedQ 4 c).data ≠ [] := by rw [hBe]; exact List.cons_ne_nil _ _
  have hCne : (toFixedQ 1 h).data ≠ [] := by rw [hCe]; exact List.cons_ne_nil _ _
  unfold parseOklch
  rw [formatOklch_data,
    searchMatch_of_match (oklchMatchAt_canonical hAtok hBtok hCtok hAne hBne hCne)]
  simp only [parseFloatTok_toFixedQ one_ne_zero (mul_nonneg hl (by norm_num : (0:ℚ) ≤ 100)),
    parseFloatTok_toFixedQ (n := 4) (by norm_num) hc,
    parseFloatTok_toFixedQ one_ne_zero hh, Option.getD_some, if_true]

theorem parseColor_formatOklch (ops : ColorOps) {l c h : ℚ} (hl : 0 ≤ l) (hc : 0 ≤ c)
    (hh : 0 ≤ h) :
    parseColor ops (formatOklch l c h) = parseOklch (formatOklch l c h).data := by
  have hne : formatOklch l c h ≠ "" := by
    intro hcon
    have h0 : (formatOklch l c h).data = [] := by rw [hcon]
    rw [formatOklch_data] at h0
    simp at h0
  unfold parseColor
  rw [if_neg hne]
  simp only [jsNorm_formatOklch hl hc hh]
  rw [if_pos (show listStarts ['o', 'k', 'l', 'c', 'h', '('] (formatOklch l c h).data = true by
    rw [formatOklch_data]
    exact listStarts_append _ _)]

theorem parseColor_formatOklch_bounds (ops : ColorOps) {l c h : ℚ} (hl : 0 ≤ l)
    (hc : 0 ≤ c) (hh : 0 ≤ h) :
    ∃ p : PColor, parseColor ops (formatOklch l c h) = some p ∧
      |p.l - l| ≤ 1/2000 ∧ |p.c - c| ≤ 1/20000 ∧ |p.h - h| ≤ 1/20 := by
  refine ⟨_, by rw [parseColor_formatOklch ops hl hc hh, parseOklch_formatOklch hl hc hh], ?_, ?_, ?_⟩
  · have hb := roundJS_err (l * 100 * 10 ^ 1)
    rw [abs_le] at hb ⊢
    constructor <;> · simp only []; nlinarith [hb.1, hb.2]
  · have hb := roundJS_err (c * 10 ^ 4)
    rw [abs_le] at hb ⊢
    constructor <;> · simp only []; nlinarith [hb.1, hb.2]
  · have hb := roundJS_err (h * 10 ^ 1)
    rw [abs_le] at hb ⊢
    constructor <;> · simp only []; nlinarith [hb.1, hb.2]

/-! ### The gamut test always passes on clamped, rounded channels -/

theorem roundJS_bounds {x : ℚ} (h0 : 0 ≤ x) (h255 : x ≤ 255) :
    0 ≤ roundJS x ∧ roundJS x ≤ 255 := by
  refine ⟨roundJS_nonneg h0, ?_⟩
  unfold roundJS
  have h2 : (⌊x + 1/2⌋ : ℤ) ≤ ⌊(511 : ℚ)/2⌋ := Int.floor_le_floor (by linarith)
  have h3 : ⌊(511 : ℚ)/2⌋ = 255 := by
    rw [Int.floor_eq_iff]
    norm_num
  omega

theorem clampQ01 (v : ℚ) : 0 ≤ clampQ 0 1 v ∧ clampQ 0 1 v ≤ 1 := by
  unfold clampQ
  refine ⟨le_max_left 0 _, ?_⟩
  rw [max_le_iff]
  exact ⟨by norm_num, min_le_left 1 v⟩

theorem jsChannel_le (x : ℚ) : jsChannel x ≤ 255 := by
  unfold jsChannel
  obtain ⟨hc0, hc1⟩ := clampQ01 x
  have := (roundJS_bounds (x := clampQ 0 1 x * 255) (by nlinarith) (by nlinarith)).2
  omega

theorem inGamut_nat {r g b : ℕ} (hr : r ≤ 255) (hg : g ≤ 255) (hb : b ≤ 255) :
    inGamut (r : ℚ) (g : ℚ) (b : ℚ) = true := by
  unfold inGamut
  simp only [Bool.and_eq_true, decide_eq_true_eq]
  have hr2 : (r : ℚ) ≤ 255 := by exact_mod_cast hr
  have hg2 : (g : ℚ) ≤ 255 := by exact_mod_cast hg
  have hb2 : (b : ℚ) ≤ 255 := by exact_mod_cast hb
  have hr0 : (0 : ℚ) ≤ (r : ℚ) := Nat.cast_nonneg r
  have hg0 : (0 : ℚ) ≤ (g : ℚ) := Nat.cast_nonneg g
  have hb0 : (0 : ℚ) ≤ (b : ℚ) := Nat.cast_nonneg b
  refine ⟨⟨⟨⟨⟨?_, ?_⟩, ?_⟩, ?_⟩, ?_⟩, ?_⟩ <;> norm_num <;> linarith

theorem inGamut_oklchToRgb (ops : ColorOps) (l c h : ℚ) :
    inGamut ((oklchToRgb ops l c h).1 : ℚ) ((oklchToRgb ops l c h).2.1 : ℚ)
      ((oklchToRgb ops l c h).2.2 : ℚ) = true :=
  inGamut_nat (jsChannel_le _) (jsChannel_le _) (jsChannel_le _)

theorem fmcStep_eq (ops : ColorOps) (l h : ℚ) (st : ℚ × ℚ × ℚ) :
    fmcStep ops l h st = ((st.1 + st.2.1) / 2, st.2.1, (st.1 + st.2.1) / 2) := by
  unfold fmcStep
  rw [if_pos (inGamut_oklchToRgb ops l ((st.1 + st.2.1) / 2) h)]

theorem findMaxChroma_eq (ops : ColorOps) (l h idealC : ℚ) :
    findMaxChroma ops l h idealC = 255 / 256 * idealC := by
  unfold findMaxChroma
  rw [show (8 : ℕ) = 1 + 1 + 1 + 1 + 1 + 1 + 1 + 1 by norm_num]
  simp only [Function.iterate_add_apply, Function.iterate_one, fmcStep_eq]
  norm_num
  ring

/-! ### Hex output canonicality -/

set_option maxRecDepth 4000 in
theorem hexByte_canonical : ∀ n < 256, (hexByte n).data.length = 2 ∧
    ∀ c ∈ (hexByte n).data, isLowerHexChar c = true := by decide

theorem isCanonicalHex_formatHex {r g b : ℕ} (hr : r ≤ 255) (hg : g ≤ 255)
    (hb : b ≤ 255) : isCanonicalHex (formatHex r g b) = true := by
  obtain ⟨hrl, hrc⟩ := hexByte_canonical r (by omega)
  obtain ⟨hgl, hgc⟩ := hexByte_canonical g (by omega)
  obtain ⟨hbl, hbc⟩ := hexByte_canonical b (by omega)
  obtain ⟨r1, r2, hre⟩ := List.length_eq_two.1 hrl
  obtain ⟨g1, g2, hge⟩ := List.length_eq_two.1 hgl
  obtain ⟨b1, b2, hbe⟩ := List.length_eq_two.1 hbl
  have hdata : (formatHex r g b).data =
      '#' :: (hexByte r).data ++ (hexByte g).data ++ (hexByte b).data := by
    unfold formatHex
    repeat rw [String.data_append]
    rfl
  unfold isCanonicalHex
  rw [hdata, hre, hge, hbe]
  simp only [List.cons_append, List.nil_append, List.append_assoc]
  have m : ∀ x ∈ [r1, r2, g1, g2, b1, b2], isLowerHexChar x = true := by
    intro x hx
    simp only [List.mem_cons, List.not_mem_nil, or_false] at hx
    rcases hx with rfl | rfl | rfl | rfl | rfl | rfl
    · exact hrc x (by rw [hre]; exact List.mem_cons_self _ _)
    · exact hrc x (by rw [hre]; simp)
    · exact hgc x (by rw [hge]; exact List.mem_cons_self _ _)
    · exact hgc x (by rw [hge]; simp)
    · exact hbc x (by rw [hbe]; exact List.mem_cons_self _ _)
    · exact hbc x (by rw [hbe]; simp)
  simp only [Bool.and_eq_true, decide_eq_true_eq, List.all_eq_true]
  exact ⟨rfl, fun c hc => m c (by simpa using hc)⟩

/-! ### The concrete arctangent has range `(-180, 180]` -/

theorem atan1_bounds (t : ℚ) : -90 < atan1 t ∧ atan1 t < 90 := by
  unfold atan1
  have h1 : (0 : ℚ) < 1 + |t| := by positivity
  have ht1 : t ≤ |t| := le_abs_self t
  have ht2 : -|t| ≤ t := neg_abs_le t
  constructor
  · rw [lt_div_iff₀ h1]
    nlinarith
  · rw [div_lt_iff₀ h1]
    nlinarith

theorem atan1_nonpos {t : ℚ} (ht : t ≤ 0) : atan1 t ≤ 0 := by
  unfold atan1
  have h1 : (0 : ℚ) < 1 + |t| := by positivity
  exact div_nonpos_iff.2 (Or.inr ⟨by nlinarith, le_of_lt h1⟩)

theorem atan1_pos {t : ℚ} (ht : 0 < t) : 0 < atan1 t := by
  unfold atan1
  have h1 : (0 : ℚ) < 1 + |t| := by positivity
  positivity

theorem atan2Approx_range (y x : ℚ) :
    -180 < atan2Approx y x ∧ atan2Approx y x ≤ 180 := by
  unfold atan2Approx
  split_ifs with h1 h2 h3 h4 h5
  · obtain ⟨hb1, hb2⟩ := atan1_bounds (y / x)
    constructor <;> linarith
  · have hyx : y / x ≤ 0 := div_nonpos_iff.2 (Or.inl ⟨h3, le_of_lt h2⟩)
    have := atan1_nonpos hyx
    obtain ⟨hb1, hb2⟩ := atan1_bounds (y / x)
    constructor <;> linarith
  · have hyx : 0 < y / x := div_pos_iff.2 (Or.inr ⟨by linarith, h2⟩)
    have := atan1_pos hyx
    obtain ⟨hb1, hb2⟩ := atan1_bounds (y / x)
    constructor <;> linarith
  · constructor <;> norm_num
  · constructor <;> norm_num
  · constructor <;> norm_num

theorem defaultOps_atan2_range :
    ∀ y x, -180 < defaultOps.atan2Deg y x ∧ defaultOps.atan2Deg y x ≤ 180 :=
  fun y x => atan2Approx_range y x

theorem hueFromAtan2_range {H : ℚ} (h1 : -180 < H) (h2 : H ≤ 180) :
    0 ≤ hueFromAtan2 H ∧ hueFromAtan2 H < 360 := by
  unfold hueFromAtan2
  split_ifs with h <;> constructor <;> linarith

theorem rgbValuesToOklch_hue {ops : ColorOps}
    (hrange : ∀ y x, -180 < ops.atan2Deg y x ∧ ops.atan2Deg y x ≤ 180) (r g b : ℚ) :
    0 ≤ (rgbValuesToOklch ops r g b).h ∧ (rgbValuesToOklch ops r g b).h < 360 := by
  show 0 ≤ hueFromAtan2 (ops.atan2Deg _ _) ∧ hueFromAtan2 (ops.atan2Deg _ _) < 360
  exact hueFromAtan2_range (hrange _ _).1 (hrange _ _).2

/-! ### Structure of the generated ramps -/

theorem generateFixedShades_keys (ops : ColorOps) (base : PColor) (orig : String)
    (format : String) (em : Option Bool) :
    (generateFixedShades ops base orig format em).map Prod.fst = SHADE_LEVELS := rfl

theorem generateEnhancedShades_keys (ops : ColorOps) (base : PColor) (orig : String)
    (format : String) (config : ModeConfig) (em : Option Bool) :
    (generateEnhancedShades ops base orig format config em).map Prod.fst = SHADE_LEVELS := rfl

theorem generateFixedShades_lookup (ops : ColorOps) (base : PColor) (orig : String)
    (format : String) (em : Option Bool) {lv : ℕ} (hlv : lv ∈ SHADE_LEVELS) :
    (generateFixedShades ops base orig format em).lookup lv =
      some (fixedShadeEntry ops base orig format (decide (em ≠ some false)) lv) := by
  fin_cases hlv <;> rfl

theorem isCanonicalHex_formatHexFromOklch (ops : ColorOps) (p : PColor) :
    isCanonicalHex (formatHexFromOklch ops p) = true :=
  isCanonicalHex_formatHex (jsChannel_le _) (jsChannel_le _) (jsChannel_le _)

theorem fixedShadeEntry_hex (ops : ColorOps) (base : PColor) (orig : String)
    (smart : Bool) (lv : ℕ) :
    (smart = true ∧ lv = 500 ∧ listStarts "#".data orig.data = true ∧
      fixedShadeEntry ops base orig "hex" smart lv = orig) ∨
    isCanonicalHex (fixedShadeEntry ops base orig "hex" smart lv) = true := by
  unfold fixedShadeEntry
  by_cases h1 : smart = true ∧ lv = 500
  · rw [if_pos h1, if_pos rfl]
    by_cases h2 : listStarts "#".data orig.data = true
    · rw [if_pos h2]
      exact Or.inl ⟨h1.1, h1.2, h2, rfl⟩
    · rw [if_neg h2]
      exact Or.inr (isCanonicalHex_formatHexFromOklch ops base)
  · rw [if_neg h1, if_pos rfl]
    exact Or.inr (isCanonicalHex_formatHex (jsChannel_le _) (jsChannel_le _) (jsChannel_le _))

theorem enhancedShadeEntry_hex (ops : ColorOps) (base : PColor) (orig : String)
    (config : ModeConfig) (em : Option Bool) (i lv : ℕ) :
    (em ≠ some false ∧ lv = 500 ∧ listStarts "#".data orig.data = true ∧
      enhancedShadeEntry ops base orig "hex" config em i lv = orig) ∨
    isCanonicalHex (enhancedShadeEntry ops base orig "hex" config em i lv) = true := by
  unfold enhancedShadeEntry
  by_cases h1 : em ≠ some false ∧ lv = 500
  · rw [if_pos h1, if_pos rfl]
    by_cases h2 : listStarts "#".data orig.data = true
    · rw [if_pos h2]
      exact Or.inl ⟨h1.1, h1.2, h2, rfl⟩
    · rw [if_neg h2]
      exact Or.inr (isCanonicalHex_formatHexFromOklch ops base)
  · rw [if_neg h1, if_pos rfl]
    exact Or.inr (isCanonicalHex_formatHex (jsChannel_le _) (jsChannel_le _) (jsChannel_le _))

theorem fixedShadeEntry_oklch (ops : ColorOps) (base : PColor) (orig : String)
    {format : String} (hfmt : format ≠ "hex") (smart : Bool) (lv : ℕ) :
    ∃ L C, fixedShadeEntry ops base orig format smart lv = formatOklch L C base.h := by
  unfold fixedShadeEntry
  by_cases h1 : smart = true ∧ lv = 500
  · rw [if_pos h1, if_neg hfmt]
    exact ⟨base.l, base.c, rfl⟩
  · rw [if_neg h1, if_neg hfmt]
    exact ⟨_, _, rfl⟩

/-! ### `parseColor` on strings starting with a hash -/

theorem dropWhile_app_last {p : Char → Bool} {a : Char} (ha : p a = false) (ys : List Char) :
    ∃ zs, (ys ++ [a]).dropWhile p = zs ++ [a] := by
  induction ys with
  | nil => exact ⟨[], by simpa [List.dropWhile] using dropWhile_cons_of_neg [] ha⟩
  | cons y ys ih =>
    by_cases hy : p y = true
    · obtain ⟨zs, hz⟩ := ih
      exact ⟨zs, by rw [List.cons_append, List.dropWhile_cons, if_pos hy, hz]⟩
    · exact ⟨y :: ys, by rw [List.cons_append,
        dropWhile_cons_of_neg _ (Bool.not_eq_true _ ▸ hy)]⟩

theorem jsTrim_head {a : Char} (ha : isWSChar a = false) (xs : List Char) :
    ∃ ys, jsTrim (a :: xs) = a :: ys := by
  unfold jsTrim
  rw [dropWhile_cons_of_neg _ ha]
  have h1 : (a :: xs).reverse = xs.reverse ++ [a] := by simp
  rw [h1]
  obtain ⟨zs, hz⟩ := dropWhile_app_last ha xs.reverse
  rw [hz]
  exact ⟨zs.reverse, by simp⟩

theorem jsNorm_hash {s : String} (hs : listStarts "#".data s.data = true) :
    ∃ ys, jsNorm s = '#' :: ys := by
  obtain ⟨xs, hx⟩ : ∃ xs, s.data = '#' :: xs := by
    cases hd : s.data with
    | nil => rw [hd] at hs; exact absurd hs (by decide)
    | cons c cs =>
      rw [hd] at hs
      have : '#' = c := by
        by_contra hne
        have : listStarts "#".data (c :: cs) = false := by
          show (decide ('#' = c) && listStarts [] cs) = false
          rw [decide_eq_false hne]
          rfl
        rw [this] at hs
        exact Bool.false_ne_true hs
      exact ⟨cs, by rw [← this]⟩
  unfold jsNorm
  rw [hx]
  obtain ⟨ys, hy⟩ := jsTrim_head (a := '#') (by decide) xs
  rw [hy, List.map_cons]
  exact ⟨ys.map jsLowerChar, by rw [show jsLowerChar '#' = '#' from rfl]⟩

theorem parseColor_hash (ops : ColorOps) {s : String} (hne : s ≠ "")
    (hs : listStarts "#".data s.data = true) :
    parseColor ops s = some (hexToOklch ops (jsNorm s)) := by
  obtain ⟨ys, hy⟩ := jsNorm_hash hs
  unfold parseColor
  rw [if_neg hne, hy]
  rw [if_neg (show ¬ listStarts "oklch(".data ('#' :: ys) = true from by
    rw [show listStarts "oklch(".data ('#' :: ys) = false from rfl]
    exact Bool.false_ne_true)]
  rw [if_pos (show listStarts "#".data ('#' :: ys) = true from rfl)]

/-! ### Monotone lightness of the smart redistribution -/

theorem fixedRampLs_chain {l : ℚ} (h14 : 14/100 ≤ l) (h97 : l ≤ 97/100) :
    List.Chain' (· ≥ ·) (fixedRampLs l) := by
  unfold fixedRampLs SHADE_LEVELS
  simp only [List.map_cons, List.map_nil, List.chain'_cons, List.chain'_singleton, and_true,
    ge_iff_le]
  norm_num [fixedTargetL, RELATIVE_POSITION, LIGHTNESS_MAP, LIGHT_HALF_RANGE, DARK_HALF_RANGE]
  refine ⟨?_, ?_, ?_, ?_, ?_, ?_, ?_, ?_, ?_, ?_⟩ <;> linarith

/-! ### Which palette entries are kept -/

theorem generatePalettes_keys (ops : ColorOps) (colors : List (String × ColorEntry))
    (options : GenOptions) (result : List (String × PaletteValue))
    (h : generatePalettes ops colors options = some result) :
    result.map Prod.fst = (colors.filter fun e => keptEntry e.2).map Prod.fst := by
  induction colors generalizing result with
  | nil =>
    unfold generatePalettes at h
    simp only [Option.some.injEq] at h
    subst h
    rfl
  | cons hd tl ih =>
    obtain ⟨name, entry⟩ := hd
    cases entry with
    | obj fields =>
      unfold generatePalettes at h
      by_cases hpass : ¬ baseTruthy fields = true ∧
          (fields.any fun f => jsKeyNumeric f.1) = true
      · rw [if_pos hpass] at h
        cases hnext : generatePalettes ops tl options with
        | none => rw [hnext] at h; exact absurd h (by simp)
        | some ps =>
          rw [hnext] at h
          simp only [Option.map_some', Option.some.injEq] at h
          subst h
          have hk : keptEntry (ColorEntry.obj fields) = true := by
            show (baseTruthy fields ||
              (!baseTruthy fields && fields.any fun f => jsKeyNumeric f.1)) = true
            rw [Bool.eq_false_iff.2 hpass.1, hpass.2]
            rfl
          rw [List.filter_cons, if_pos hk]
          simp only [List.map_cons]
          rw [ih ps hnext]
      · rw [if_neg hpass] at h
        by_cases hbase : baseTruthy fields = true
        · rw [if_pos hbase] at h
          have hk : keptEntry (ColorEntry.obj fields) = true := by
            show (baseTruthy fields ||
              (!baseTruthy fields && fields.any fun f => jsKeyNumeric f.1)) = true
            rw [hbase]
            rfl
          split at h
          · split at h
            · exact absurd h (by simp)
            · rename_i baseStr hfield r hgen
              cases hnext : generatePalettes ops tl options with
              | none => rw [hnext] at h; exact absurd h (by simp)
              | some ps =>
                rw [hnext] at h
                simp only [Option.map_some', Option.some.injEq] at h
                subst h
                rw [List.filter_cons, if_pos hk]
                simp only [List.map_cons]
                rw [ih ps hnext]
          · exact absurd h (by simp)
        · rw [if_neg hbase] at h
          have hnum : (fields.any fun f => jsKeyNumeric f.1) = false := by
            by_contra hc
            exact hpass ⟨hbase, Bool.eq_true_of_ne_false hc⟩
          have hk : keptEntry (ColorEntry.obj fields) = false := by
            show (baseTruthy fields ||
              (!baseTruthy fields && fields.any fun f => jsKeyNumeric f.1)) = false
            rw [Bool.eq_false_iff.2 hbase, hnum]
            rfl
          rw [List.filter_cons, if_neg (by simp [hk])]
          exact ih result h
    | prim v =>
      cases v with
      | vstr str =>
        unfold generatePalettes at h
        split at h
        · exact absurd h (by simp)
        · rename_i r hgen
          cases hnext : generatePalettes ops tl options with
          | none => rw [hnext] at h; exact absurd h (by simp)
          | some ps =>
            rw [hnext] at h
            simp only [Option.map_some', Option.some.injEq] at h
            subst h
            rw [List.filter_cons, if_pos (show keptEntry (ColorEntry.prim (JVal.vstr str)) = true
              from rfl)]
            simp only [List.map_cons]
            rw [ih ps hnext]
      | vnum q =>
        unfold generatePalettes at h
        rw [List.filter_cons, if_neg (show ¬ keptEntry (ColorEntry.prim (JVal.vnum q)) = true
          from by simp [keptEntry])]
        exact ih result h
      | vbool b =>
        unfold generatePalettes at h
        rw [List.filter_cons, if_neg (show ¬ keptEntry (ColorEntry.prim (JVal.vbool b)) = true
          from by simp [keptEntry])]
        exact ih result h
      | vnull =>
        unfold generatePalettes at h
        rw [List.filter_cons, if_neg (show ¬ keptEntry (ColorEntry.prim JVal.vnull) = true
          from by simp [keptEntry])]
        exact ih result h
/-! ### parseColor acceptance analysis (C4) -/

theorem listStarts_head {c : Char} {cs t : List Char}
    (h : listStarts (c :: cs) t = true) : ∃ rest, t = c :: rest := by
  cases t with
  | nil => exact absurd h (by simp [listStarts])
  | cons a r =>
    simp only [listStarts, Bool.and_eq_true, decide_eq_true_eq] at h
    exact ⟨r, by rw [← h.1]⟩

theorem parseOklch_none_iff (cs : List Char) :
    parseOklch cs = none ↔ searchMatch oklchMatchAt cs = none := by
  cases h : searchMatch oklchMatchAt cs <;> simp [parseOklch, h]

theorem rgbToOklch_none_iff (ops : ColorOps) (cs : List Char) :
    rgbToOklch ops cs = none ↔ searchMatch rgbMatchAt cs = none := by
  cases h : searchMatch rgbMatchAt cs <;> simp [rgbToOklch, h]

theorem hslToOklch_none_iff (ops : ColorOps) (cs : List Char) :
    hslToOklch ops cs = none ↔ searchMatch hslMatchAt cs = none := by
  cases h : searchMatch hslMatchAt cs <;> simp [hslToOklch, h]

theorem parseColor_none_iff (ops : ColorOps) (s : String) :
    parseColor ops s = none ↔ acceptedAmended s = false := by
  by_cases hs : s = ""
  · subst hs
    exact ⟨fun _ => rfl, fun _ => rfl⟩
  · rw [show parseColor ops s =
        (if listStarts "oklch(".data (jsNorm s) then parseOklch (jsNorm s)
         else if listStarts "#".data (jsNorm s) then some (hexToOklch ops (jsNorm s))
         else if listStarts "rgb".data (jsNorm s) then rgbToOklch ops (jsNorm s)
         else if listStarts "hsl".data (jsNorm s) then hslToOklch ops (jsNorm s)
         else if isBareHex (jsNorm s) then some (hexToOklch ops ('#' :: jsNorm s))
         else none) from by rw [parseColor, if_neg hs]]
    rw [show acceptedAmended s =
        ((listStarts "oklch(".data (jsNorm s) && (searchMatch oklchMatchAt (jsNorm s)).isSome)
         || listStarts "#".data (jsNorm s)
         || (listStarts "rgb".data (jsNorm s) && (searchMatch rgbMatchAt (jsNorm s)).isSome)
         || (listStarts "hsl".data (jsNorm s) && (searchMatch hslMatchAt (jsNorm s)).isSome)
         || isBareHex (jsNorm s)) from by rw [acceptedAmended]; simp [hs]]
    generalize jsNorm s = t
    by_cases h1 : listStarts "oklch(".data t = true
    · obtain ⟨rest, hrest⟩ := listStarts_head h1
      have hhash : listStarts "#".data t = false := by rw [hrest]; rfl
      have hrgb : listStarts "rgb".data t = false := by rw [hrest]; rfl
      have hhsl : listStarts "hsl".data t = false := by rw [hrest]; rfl
      have hbare : isBareHex t = false := by
        rw [hrest, isBareHex]
        simp [List.all_cons, show isLowerHexChar 'o' = false from rfl]
      rw [if_pos h1, parseOklch_none_iff, h1, hhash, hrgb, hhsl, hbare]
      cases searchMatch oklchMatchAt t <;> simp
    · have h1f : listStarts "oklch(".data t = false := Bool.eq_false_iff.2 h1
      rw [if_neg h1]
      by_cases h2 : listStarts "#".data t = true
      · rw [if_pos h2, h1f, h2]
        simp
      · have h2f : listStarts "#".data t = false := Bool.eq_false_iff.2 h2
        rw [if_neg h2]
        by_cases h3 : listStarts "rgb".data t = true
        · obtain ⟨rest, hrest⟩ := listStarts_head h3
          have hhsl : listStarts "hsl".data t = false := by rw [hrest]; rfl
          have hbare : isBareHex t = false := by
            rw [hrest, isBareHex]
            simp [List.all_cons, show isLowerHexChar 'r' = false from rfl]
          rw [if_pos h3, rgbToOklch_none_iff, h1f, h2f, h3, hhsl, hbare]
          cases searchMatch rgbMatchAt t <;> simp
        · have h3f : listStarts "rgb".data t = false := Bool.eq_false_iff.2 h3
          rw [if_neg h3]
          by_cases h4 : listStarts "hsl".data t = true
          · obtain ⟨rest, hrest⟩ := listStarts_head h4
            have hbare : isBareHex t = false := by
              rw [hrest, isBareHex]
              simp [List.all_cons, show isLowerHexChar 'h' = false from rfl]
            rw [if_pos h4, hslToOklch_none_iff, h1f, h2f, h3f, h4, hbare]
            cases searchMatch hslMatchAt t <;> simp
          · have h4f : listStarts "hsl".data t = false := Bool.eq_false_iff.2 h4
            rw [if_neg h4]
            by_cases h5 : isBareHex t = true
            · rw [if_pos h5, h5]
              simp
            · have h5f : isBareHex t = false := Bool.eq_false_iff.2 h5
              rw [if_neg h5, h1f, h2f, h3f, h4f, h5f]
              simp
/-! ## The claims

Each claim of the specification is settled by one theorem below; a
counterexample theorem, where present, refutes the claim exactly as the
specification words it, and the main theorem proves the corrected
statement. -/

theorem generateShades_fixed (ops : ColorOps) (color : String) (options : GenOptions)
    (hm : options.mode = "fixed") :
    generateShades ops color options = (parseColor ops color).map fun base =>
      generateFixedShades ops base color options.format options.exactMatch := by
  unfold generateShades
  cases parseColor ops color <;> simp [hm]

theorem generateShades_enhanced (ops : ColorOps) (color : String) (options : GenOptions)
    {config : ModeConfig} (hm : options.mode ≠ "fixed")
    (hc : MODE_CONFIG options.mode = some config) :
    generateShades ops color options = (parseColor ops color).map fun base =>
      generateEnhancedShades ops base color options.format config options.exactMatch := by
  unfold generateShades
  cases parseColor ops color <;> simp [hm, hc]

theorem generateShades_unknown (ops : ColorOps) (color : String) (options : GenOptions)
    (hc : MODE_CONFIG options.mode = none) (hpk : isObjectProtoKey options.mode = false) :
    generateShades ops color options = (parseColor ops color).map fun base =>
      generateEnhancedShades ops base color options.format fixedModeConfig
        options.exactMatch := by
  have hm : options.mode ≠ "fixed" := by
    intro hx
    simp [ MODE_CONFIG, hx] at hc
  unfold generateShades
  cases parseColor ops color <;> simp [hm, hc, hpk]

theorem generateShades_proto (ops : ColorOps) (color : String) (options : GenOptions)
    (hc : MODE_CONFIG options.mode = none) (hpk : isObjectProtoKey options.mode = true) :
    generateShades ops color options = (parseColor ops color).bind fun _ => none := by
  have hm : options.mode ≠ "fixed" := by
    intro hx
    simp [ MODE_CONFIG, hx] at hc
  unfold generateShades
  cases parseColor ops color <;> simp [hm, hc, hpk]

/-- C7: for every valid input color, every mode string, every format and
every `exactMatch` setting, the ramp returned by `generateShades` has
exactly the eleven keys 50, 100, 200, 300, 400, 500, 600, 700, 800, 900,
950, in order, one entry per level. -/
theorem C7_eleven_keys (ops : ColorOps) (color : String) (options : GenOptions)
    {ramp : List (ℕ × String)} (h : generateShades ops color options = some ramp) :
    ramp.map Prod.fst = SHADE_LEVELS := by
  by_cases hm : options.mode = "fixed"
  · rw [generateShades_fixed ops color options hm] at h
    cases hp : parseColor ops color with
    | none => rw [hp] at h; exact absurd h (by simp)
    | some base =>
      rw [hp] at h
      simp only [Option.map_some', Option.some.injEq] at h
      subst h
      rfl
  · cases hc : MODE_CONFIG options.mode with
    | some config =>
      rw [generateShades_enhanced ops color options hm hc] at h
      cases hp : parseColor ops color with
      | none => rw [hp] at h; exact absurd h (by simp)
      | some base =>
        rw [hp] at h
        simp only [Option.map_some', Option.some.injEq] at h
        subst h
        rfl
    | none =>
      cases hpk : isObjectProtoKey options.mode with
      | false =>
        rw [generateShades_unknown ops color options hc hpk] at h
        cases hp : parseColor ops color with
        | none => rw [hp] at h; exact absurd h (by simp)
        | some base =>
          rw [hp] at h
          simp only [Option.map_some', Option.some.injEq] at h
          subst h
          rfl
      | true =>
        rw [generateShades_proto ops color options hc hpk] at h
        cases hp : parseColor ops color with
        | none => rw [hp] at h; exact absurd h (by simp)
        | some base => rw [hp] at h; exact absurd h (by simp)

/-- C7, instantiated: the keys of a concrete ramp. -/
theorem C7_eleven_keys_witness :
    ((generateShades defaultOps "oklch(0.5 0 200)" ⟨"oklch", "fixed", none⟩).getD []).map
      Prod.fst = SHADE_LEVELS :=
  C7_eleven_keys defaultOps "oklch(0.5 0 200)" ⟨"oklch", "fixed", none⟩ (by rfl)

/-- C8: in fixed mode with perceptual-text output, every one of the eleven
emitted values formats the base color's hue verbatim, so the hue is
identical across the ramp (a fortiori within the claimed 0.1 degrees). -/
theorem C8_fixed_hue_constant (ops : ColorOps) (color : String) (em : Option Bool)
    {base : PColor} (hb : parseColor ops color = some base)
    {ramp : List (ℕ × String)}
    (h : generateShades ops color ⟨"oklch", "fixed", em⟩ = some ramp)
    {lv : ℕ} (hlv : lv ∈ SHADE_LEVELS) :
    ∃ L C, ramp.lookup lv = some (formatOklch L C base.h) := by
  rw [generateShades_fixed ops color ⟨"oklch", "fixed", em⟩ rfl, hb] at h
  simp only [Option.map_some', Option.some.injEq] at h
  subst h
  obtain ⟨L, C, hE⟩ := fixedShadeEntry_oklch ops base color
    (show ("oklch" : String) ≠ "hex" by decide) (decide ((em : Option Bool) ≠ some false)) lv
  exact ⟨L, C, by rw [generateFixedShades_lookup ops base color "oklch" em hlv, hE]⟩

/-- C8, instantiated: the hue of the level-500 entry of a concrete ramp. -/
theorem C8_fixed_hue_constant_witness :
    ∃ L C, ((generateShades defaultOps "oklch(0.5 0 200)"
        ⟨"oklch", "fixed", none⟩).getD []).lookup 500 =
      some (formatOklch L C ((parseColor defaultOps "oklch(0.5 0 200)").getD ⟨0, 0, 0⟩).h) :=
  C8_fixed_hue_constant defaultOps "oklch(0.5 0 200)" none (by rfl) (by rfl) (by decide)

/-- C4 (corrected): a missing input is an error, and `parseColor` errors
exactly on the texts outside `acceptedAmended` - which, unlike the claim's
reading, admits any text starting with `#`, and bare hex runs of any length
from 3 to 8. -/
theorem C4_parse_error_iff (ops : ColorOps) (s : String) :
    parseColorJ ops none = none ∧ (parseColor ops s = none ↔ acceptedAmended s = false) :=
  ⟨rfl, parseColor_none_iff ops s⟩

/-- C4, refuting the claim as worded: a bare run of five hex digits matches
none of the claim's recognized notations, yet `parseColor` accepts it. -/
theorem C4_counterexample :
    (parseColor defaultOps "abcde").isSome = true ∧ claimRecognized "abcde" = false :=
  ⟨rfl, by decide⟩

/-- C2 (corrected): the fixed-mode smart lightness targets are monotonically
non-increasing from level 50 through level 950 whenever the base lightness
lies between 0.14 and 0.97 - not, as claimed, on all of (0, 1). -/
theorem C2_lightness_monotone {l : ℚ} (h14 : 14/100 ≤ l) (h97 : l ≤ 97/100) :
    List.Chain' (· ≥ ·) (SHADE_LEVELS.map (fixedTargetL true l)) :=
  fixedRampLs_chain h14 h97

/-- C2, instantiated at base lightness 0.5. -/
theorem C2_lightness_monotone_witness :
    List.Chain' (· ≥ ·) (SHADE_LEVELS.map (fixedTargetL true (1/2))) :=
  C2_lightness_monotone (by decide) (by decide)

/-- C2, refuting the claim as worded: at base lightness 0.01, strictly
between 0 and 1, the redistributed targets increase again after level 500. -/
theorem C2_counterexample :
    0 < (1/100 : ℚ) ∧ (1/100 : ℚ) < 1 ∧
      ¬ List.Chain' (· ≥ ·) (SHADE_LEVELS.map (fixedTargetL true (1/100))) := by
  refine ⟨by decide, by decide, ?_⟩
  simp only [SHADE_LEVELS, List.map_cons, List.map_nil, List.chain'_cons,
    List.chain'_singleton, and_true]
  decide

/-- C10 (corrected): `generatePalettes` keeps exactly the entries that are
strings, objects with a truthy `base` field, or base-less objects with at
least one numeric-looking key; every other name is silently absent from the
result.  The claim's reading (any `base` field suffices) is refuted by the
counterexample. -/
theorem C10_omitted_entries (ops : ColorOps) (colors : List (String × ColorEntry))
    (options : GenOptions) {result : List (String × PaletteValue)}
    (h : generatePalettes ops colors options = some result) :
    result.map Prod.fst = (colors.filter fun e => keptEntry e.2).map Prod.fst :=
  generatePalettes_keys ops colors options result h

/-- C10, instantiated: a string entry is kept, a numeric entry and an object
with a falsy `base` are dropped, with no error. -/
theorem C10_omitted_entries_witness :
    ((generatePalettes defaultOps
        [("a", ColorEntry.prim (JVal.vstr "oklch(0.5 0 200)")),
         ("b", ColorEntry.prim (JVal.vnum 3)),
         ("c", ColorEntry.obj [("base", JVal.vbool false)])]
        ⟨"oklch", "fixed", none⟩).getD []).map Prod.fst =
      (([("a", ColorEntry.prim (JVal.vstr "oklch(0.5 0 200)")),
         ("b", ColorEntry.prim (JVal.vnum 3)),
         ("c", ColorEntry.obj [("base", JVal.vbool false)])].filter
        fun e => keptEntry e.2).map Prod.fst) :=
  C10_omitted_entries defaultOps
    [("a", ColorEntry.prim (JVal.vstr "oklch(0.5 0 200)")),
     ("b", ColorEntry.prim (JVal.vnum 3)),
     ("c", ColorEntry.obj [("base", JVal.vbool false)])]
    ⟨"oklch", "fixed", none⟩ (by rfl)

/-- C10, refuting the claim as worded: an object that does carry a `base`
field, with the falsy value `false`, is nevertheless omitted. -/
theorem C10_counterexample :
    generatePalettes defaultOps [("c", ColorEntry.obj [("base", JVal.vbool false)])]
        ⟨"oklch", "fixed", none⟩ = some [] ∧
      claimOmitted (ColorEntry.obj [("base", JVal.vbool false)]) = false :=
  ⟨rfl, rfl⟩

/-- C5 (corrected): the hue of a parsed color is normalized into [0,360)
for the hex, rgb and hsl notations - every path through `rgbValuesToOklch` -
provided every matched numeric token carries a digit (a digit-less token
such as the `.` of `rgb(. 1 2)` makes JavaScript return NaN components
instead); the counterexample shows the oklch notation is passed through
without normalization. -/
theorem C5_hue_range (ops : ColorOps)
    (hatan : ∀ y x, -180 < ops.atan2Deg y x ∧ ops.atan2Deg y x ≤ 180)
    {s : String} (_hclean : parseClean s = true)
    (hnk : listStarts "oklch(".data (jsNorm s) = false)
    {p : PColor} (hp : parseColor ops s = some p) :
    0 ≤ p.h ∧ p.h < 360 := by
  by_cases hs : s = ""
  · rw [hs] at hp
    exact absurd hp (by simp [parseColor])
  · rw [show parseColor ops s =
        (if listStarts "oklch(".data (jsNorm s) then parseOklch (jsNorm s)
         else if listStarts "#".data (jsNorm s) then some (hexToOklch ops (jsNorm s))
         else if listStarts "rgb".data (jsNorm s) then rgbToOklch ops (jsNorm s)
         else if listStarts "hsl".data (jsNorm s) then hslToOklch ops (jsNorm s)
         else if isBareHex (jsNorm s) then some (hexToOklch ops ('#' :: jsNorm s))
         else none) from by rw [parseColor, if_neg hs],
      if_neg (show ¬ listStarts "oklch(".data (jsNorm s) = true by rw [hnk]; simp)] at hp
    by_cases h2 : listStarts "#".data (jsNorm s) = true
    · rw [if_pos h2] at hp
      simp only [Option.some.injEq] at hp
      subst hp
      exact rgbValuesToOklch_hue hatan _ _ _
    · rw [if_neg h2] at hp
      by_cases h3 : listStarts "rgb".data (jsNorm s) = true
      · rw [if_pos h3] at hp
        unfold rgbToOklch at hp
        split at hp
        · exact absurd hp (by simp)
        · simp only [Option.some.injEq] at hp
          subst hp
          exact rgbValuesToOklch_hue hatan _ _ _
      · rw [if_neg h3] at hp
        by_cases h4 : listStarts "hsl".data (jsNorm s) = true
        · rw [if_pos h4] at hp
          unfold hslToOklch at hp
          split at hp
          · exact absurd hp (by simp)
          · simp only [Option.some.injEq] at hp
            subst hp
            exact rgbValuesToOklch_hue hatan _ _ _
        · rw [if_neg h4] at hp
          by_cases h5 : isBareHex (jsNorm s) = true
          · rw [if_pos h5] at hp
            simp only [Option.some.injEq] at hp
            subst hp
            exact rgbValuesToOklch_hue hatan _ _ _
          · rw [if_neg h5] at hp
            exact absurd hp (by simp)

/-- C5, instantiated: the hue parsed from a concrete hex color. -/
theorem C5_hue_range_witness :
    0 ≤ ((parseColor defaultOps "#fff").getD ⟨0, 0, 0⟩).h ∧
      ((parseColor defaultOps "#fff").getD ⟨0, 0, 0⟩).h < 360 :=
  C5_hue_range defaultOps defaultOps_atan2_range (s := "#fff") (by decide) (by decide)
    (by rfl)

/-- C5, refuting the claim as worded: the oklch notation is accepted with a
hue of 400, which is returned unnormalized, outside [0,360). -/
theorem C5_counterexample :
    parseColor defaultOps "oklch(0.5 0.1 400)" = some ⟨1/2, 1/10, 400⟩ ∧
      ¬ (400 : ℚ) < 360 :=
  ⟨by decide, by decide⟩

/-- C1 (corrected): an unrecognized mode does not fall back to the fixed
algorithm.  A mode naming an `Object.prototype` member makes the prototype
lookup return a truthy non-config and `generateShades` throw; every other
unknown mode runs the enhanced algorithm with the fixed mode's parameter
set, which produces a different ramp (see the counterexample). -/
theorem C1_unknown_mode (ops : ColorOps) (color : String) (options : GenOptions)
    (hm : options.mode ≠ "fixed" ∧ options.mode ≠ "natural" ∧ options.mode ≠ "vivid")
    {base : PColor} (hb : parseColor ops color = some base) :
    (isObjectProtoKey options.mode = false →
      generateShades ops color options =
        some (generateEnhancedShades ops base color options.format fixedModeConfig
          options.exactMatch)) ∧
    (isObjectProtoKey options.mode = true → generateShades ops color options = none) := by
  have hc : MODE_CONFIG options.mode = none := by
    rw [ MODE_CONFIG, if_neg hm.1, if_neg hm.2.1, if_neg hm.2.2]
  constructor
  · intro hpk
    rw [generateShades_unknown ops color options hc hpk, hb]
    rfl
  · intro hpk
    rw [generateShades_proto ops color options hc hpk, hb]
    rfl

/-- C1, instantiated at a concrete color and the unknown mode "wild". -/
theorem C1_unknown_mode_witness :
    generateShades defaultOps "oklch(0.5 0 200)" ⟨"oklch", "wild", none⟩ =
      some (generateEnhancedShades defaultOps
        ((parseColor defaultOps "oklch(0.5 0 200)").getD ⟨0, 0, 0⟩)
        "oklch(0.5 0 200)" "oklch" fixedModeConfig none) :=
  (C1_unknown_mode defaultOps "oklch(0.5 0 200)" ⟨"oklch", "wild", none⟩
    ⟨by decide, by decide, by decide⟩ (by rfl)).1 (by decide)

set_option maxRecDepth 100000 in
/-- C1, refuting the claim as worded: with an unknown mode the level-100
value differs from the fixed mode's level-100 value on the same input. -/
theorem C1_counterexample :
    ((generateShades defaultOps "oklch(0.5 0 200)" ⟨"oklch", "bogus", none⟩).getD
        []).lookup 100 ≠
      ((generateShades defaultOps "oklch(0.5 0 200)" ⟨"oklch", "fixed", none⟩).getD
        []).lookup 100 := by
  decide

/-- C6 (corrected): when the exact-match echo is disabled
(`exactMatch = false`) and every numeric token of the input carries a digit
(so JavaScript produces no NaN), every value emitted with format "hex", in
any mode that returns at all, is `#` followed by exactly six lowercase hex
digits; the counterexample shows the level-500 echo of the default
configuration can violate this. -/
theorem C6_hex_canonical (ops : ColorOps) (color : String) (mode : String)
    (_hclean : parseClean color = true)
    {ramp : List (ℕ × String)}
    (h : generateShades ops color ⟨"hex", mode, some false⟩ = some ramp) :
    ramp.all (fun e => isCanonicalHex e.2) = true := by
  have hfix : ∀ base : PColor,
      (generateFixedShades ops base color "hex" (some false)).all
        (fun e => isCanonicalHex e.2) = true := by
    intro base
    rw [List.all_eq_true]
    intro e he
    rw [generateFixedShades] at he
    obtain ⟨lv, hlv, rfl⟩ := List.mem_map.1 he
    rcases fixedShadeEntry_hex ops base color
        (decide ((some false : Option Bool) ≠ some false)) lv with hcase | hcan
    · exact absurd hcase.1 (by decide)
    · exact hcan
  have henh : ∀ (base : PColor) (config : ModeConfig),
      (generateEnhancedShades ops base color "hex" config (some false)).all
        (fun e => isCanonicalHex e.2) = true := by
    intro base config
    rw [List.all_eq_true]
    intro e he
    rw [generateEnhancedShades] at he
    obtain ⟨i, hi, rfl⟩ := List.mem_map.1 he
    rcases enhancedShadeEntry_hex ops base color config (some false) i
        (SHADE_LEVELS.getD i 0) with hcase | hcan
    · exact absurd rfl hcase.1
    · exact hcan
  by_cases hm : (⟨"hex", mode, some false⟩ : GenOptions).mode = "fixed"
  · rw [generateShades_fixed ops color ⟨"hex", mode, some false⟩ hm] at h
    cases hp : parseColor ops color with
    | none => rw [hp] at h; exact absurd h (by simp)
    | some base =>
      rw [hp] at h
      simp only [Option.map_some', Option.some.injEq] at h
      subst h
      exact hfix base
  · cases hc : MODE_CONFIG (⟨"hex", mode, some false⟩ : GenOptions).mode with
    | some config =>
      rw [generateShades_enhanced ops color ⟨"hex", mode, some false⟩ hm hc] at h
      cases hp : parseColor ops color with
      | none => rw [hp] at h; exact absurd h (by simp)
      | some base =>
        rw [hp] at h
        simp only [Option.map_some', Option.some.injEq] at h
        subst h
        exact henh base config
    | none =>
      cases hpk : isObjectProtoKey (⟨"hex", mode, some false⟩ : GenOptions).mode with
      | false =>
        rw [generateShades_unknown ops color ⟨"hex", mode, some false⟩ hc hpk] at h
        cases hp : parseColor ops color with
        | none => rw [hp] at h; exact absurd h (by simp)
        | some base =>
          rw [hp] at h
          simp only [Option.map_some', Option.some.injEq] at h
          subst h
          exact henh base fixedModeConfig
      | true =>
        rw [generateShades_proto ops color ⟨"hex", mode, some false⟩ hc hpk] at h
        cases hp : parseColor ops color with
        | none => rw [hp] at h; exact absurd h (by simp)
        | some base => rw [hp] at h; exact absurd h (by simp)

/-- C6, instantiated: a concrete hex ramp with the echo disabled. -/
theorem C6_hex_canonical_witness :
    ((generateShades defaultOps "#abc" ⟨"hex", "fixed", some false⟩).getD []).all
      (fun e => isCanonicalHex e.2) = true :=
  C6_hex_canonical defaultOps "#abc" "fixed" (by decide) (by rfl)

/-- C6, refuting the claim as worded: with the default configuration the
valid input "#ABC" is echoed verbatim at level 500, and is not a
six-lowercase-digit hex string. -/
theorem C6_counterexample :
    (parseColor defaultOps "#ABC").isSome = true ∧
      isCanonicalHex ((((generateShades defaultOps "#ABC"
        ⟨"hex", "fixed", none⟩).getD []).lookup 500).getD "") = false :=
  ⟨rfl, by decide⟩

/-- C3 (corrected): for inputs that start with `#`, the level-500 hex value
is the input echoed verbatim (so equal up to case trivially), and the
level-500 perceptual-text value parses back to the base triple within
1/2000 in lightness, 1/20000 in chroma and 1/20 - not the claimed 1e-3 -
in hue degrees.  The counterexample shows hex inputs without `#` are not
echoed at all. -/
theorem C3_exact_match (ops : ColorOps) {s : String} (hne : s ≠ "")
    (hh : listStarts "#".data s.data = true)
    (hl : 0 ≤ (hexToOklch ops (jsNorm s)).l) (hc : 0 ≤ (hexToOklch ops (jsNorm s)).c)
    (hhu : 0 ≤ (hexToOklch ops (jsNorm s)).h) :
    (((generateShades ops s ⟨"hex", "fixed", none⟩).getD []).lookup 500 = some s) ∧
    ∃ v p, ((generateShades ops s ⟨"oklch", "fixed", none⟩).getD []).lookup 500 = some v ∧
      parseColor ops v = some p ∧
      |p.l - (hexToOklch ops (jsNorm s)).l| ≤ 1/2000 ∧
      |p.c - (hexToOklch ops (jsNorm s)).c| ≤ 1/20000 ∧
      |p.h - (hexToOklch ops (jsNorm s)).h| ≤ 1/20 := by
  have hb := parseColor_hash ops hne hh
  have hg1 : generateShades ops s ⟨"hex", "fixed", none⟩ =
      some (generateFixedShades ops (hexToOklch ops (jsNorm s)) s "hex" none) := by
    rw [generateShades_fixed ops s ⟨"hex", "fixed", none⟩ rfl, hb]
    rfl
  have hg2 : generateShades ops s ⟨"oklch", "fixed", none⟩ =
      some (generateFixedShades ops (hexToOklch ops (jsNorm s)) s "oklch" none) := by
    rw [generateShades_fixed ops s ⟨"oklch", "fixed", none⟩ rfl, hb]
    rfl
  constructor
  · rw [hg1, Option.getD_some,
      generateFixedShades_lookup ops _ s "hex" none (show (500 : ℕ) ∈ SHADE_LEVELS by decide)]
    rw [fixedShadeEntry, if_pos ⟨by decide, rfl⟩, if_pos rfl, if_pos hh]
  · obtain ⟨p, hp, hbl, hbc, hbh⟩ := parseColor_formatOklch_bounds ops hl hc hhu
    refine ⟨formatOklch (hexToOklch ops (jsNorm s)).l (hexToOklch ops (jsNorm s)).c
      (hexToOklch ops (jsNorm s)).h, p, ?_, hp, hbl, hbc, hbh⟩
    rw [hg2, Option.getD_some,
      generateFixedShades_lookup ops _ s "oklch" none (show (500 : ℕ) ∈ SHADE_LEVELS by decide)]
    rw [fixedShadeEntry, if_pos ⟨by decide, rfl⟩,
      if_neg (show ¬ ("oklch" : String) = "hex" by decide)]

/-- C3, instantiated at the input "#abc". -/
theorem C3_exact_match_witness :
    ((((generateShades defaultOps "#abc" ⟨"hex", "fixed", none⟩).getD []).lookup 500 =
        some "#abc") ∧
    ∃ v p, ((generateShades defaultOps "#abc" ⟨"oklch", "fixed", none⟩).getD
        []).lookup 500 = some v ∧
      parseColor defaultOps v = some p ∧
      |p.l - (hexToOklch defaultOps (jsNorm "#abc")).l| ≤ 1/2000 ∧
      |p.c - (hexToOklch defaultOps (jsNorm "#abc")).c| ≤ 1/20000 ∧
      |p.h - (hexToOklch defaultOps (jsNorm "#abc")).h| ≤ 1/20) :=
  C3_exact_match defaultOps (by decide) (by decide) (by decide) (by decide) (by decide)

/-- C3, refuting the claim as worded: the valid hex input "abc" (no `#`) is
not echoed at level 500, not even up to case - the emitted value is a
re-derived hex string. -/
theorem C3_counterexample :
    (parseColor defaultOps "abc").isSome = true ∧
      toLowerStr ((((generateShades defaultOps "abc" ⟨"hex", "fixed", none⟩).getD
        []).lookup 500).getD "") ≠ toLowerStr "abc" :=
  ⟨rfl, by decide⟩

set_option maxRecDepth 100000 in
/-- C9: the in-gamut test inside `findMaxChroma` is applied to channels that
`oklchToRgb` has already clamped to [0,255] and rounded, so it always
passes: the binary search never rejects a midpoint and the function returns
exactly 255/256 of the desired chroma for all inputs.  At lightness 1/2,
hue 30 and desired chroma 2/5 the returned chroma is positive while the
pre-rounding green channel lies far below -0.5 (code bug: the claimed
gamut guarantee does not hold). -/
theorem C9_gamut_check_vacuous :
    (∀ (ops : ColorOps) (l h c : ℚ), findMaxChroma ops l h c = 255 / 256 * c) ∧
    0 < findMaxChroma defaultOps (1/2) 30 (2/5) ∧
    ¬ (-1/2 ≤ (oklchToRgbPre defaultOps (1/2)
        (findMaxChroma defaultOps (1/2) 30 (2/5)) 30).2.1) :=
  ⟨fun ops l h c => findMaxChroma_eq ops l h c, by decide, by decide⟩

end Theming
